import Mathlib

/-!
Shallow embedding of the MongoDB wire-protocol observation tools
(`mongodbtools/mongo_proxy.py`, the inline proxy, and
`mongodbtools/mongo_sniff.py`, the offline pcap sniffer) together with
proofs about the claims of the specification.

Conventions of the embedding:
* A Python byte string is a `List Nat` (each element a byte value).
* Python `struct.unpack` of little-endian 32-bit words becomes `readU32`
  (unsigned) and `toI32 ∘ readU32` (signed, two's complement).
* Fallible Python code (raising exceptions) returns `Except String α`;
  the string is the exception tag.
* The embedded-document decoder `bson.decode_all` is external to the
  repository.  It is modelled by its documented framing behaviour: every
  document carries a little-endian `u32` total length (at least 5,
  terminating NUL as its last byte); `decode_all` splits a buffer into
  consecutive documents and raises on malformed framing.  A decoded
  document is kept as its raw byte slice.
* Loops whose termination depends on run-time data take an explicit fuel
  argument; running out of fuel yields the distinguished result `.spin`
  (the real program would not have terminated on such an input).
-/

/-- Bytes of a Python byte string. -/
abbrev Bytes := List Nat

deriving instance DecidableEq for Except

/-- Reduction of the `Except` monad's bind on a success value. -/
theorem ok_bind {ε α β : Type} (a : α) (f : α → Except ε β) :
    Except.ok (ε := ε) a >>= f = f a := rfl

/-- Little-endian unsigned 32-bit read of the first four bytes
(`struct.unpack("<I", b[0:4])`).  Callers check the slice length. -/
def readU32 : Bytes → Nat
  | b0 :: b1 :: b2 :: b3 :: _ => b0 + 256 * b1 + 65536 * b2 + 16777216 * b3
  | _ => 0

/-- Interpret an unsigned 32-bit value as a signed two's-complement
32-bit integer (`struct.unpack("<i", ...)`). -/
def toI32 (n : Nat) : Int :=
  if n < 2147483648 then (n : Int) else (n : Int) - 4294967296

/-- Python slice `b[i:j]`. -/
def pySlice (b : Bytes) (i j : Nat) : Bytes := (b.take j).drop i

/-- `struct.unpack("<i", s)[0]`: requires the slice to be exactly four
bytes, else `struct.error`. -/
def unpack_i32 (b : Bytes) : Except String Int :=
  if b.length = 4 then .ok (toI32 (readU32 b)) else .error "struct.error"

/-- `struct.unpack("<I", s)[0]`. -/
def unpack_u32 (b : Bytes) : Except String Nat :=
  if b.length = 4 then .ok (readU32 b) else .error "struct.error"

/-- `struct.unpack("<q", s)[0]` / `"<Q"`: eight bytes, little endian.
Only used with unsigned interpretation for the sniffer and signed for the
proxy; both tools only thread the value through, so the unsigned read is
kept and the signed view derived where needed. -/
def readU64 : Bytes → Nat
  | b0 :: b1 :: b2 :: b3 :: b4 :: b5 :: b6 :: b7 :: _ =>
      b0 + 256 * b1 + 65536 * b2 + 16777216 * b3 + 4294967296 * b4 +
        1099511627776 * b5 + 281474976710656 * b6 + 72057594037927936 * b7
  | _ => 0

def unpack_u64 (b : Bytes) : Except String Nat :=
  if b.length = 8 then .ok (readU64 b) else .error "struct.error"

/-- Byte form of the empty document `{}` (the default value the decoders
use for an absent second document). -/
def emptyDoc : Bytes := [5, 0, 0, 0, 0]

/-- `bson.decode_all`, modelled from its documented framing (the bson
library is an external collaborator): repeatedly read the `u32` length
prefix of the next document, check it is at least 5, fits in the buffer
and ends with a NUL byte, and slice the document off.  Fuelled by the
buffer length (each document consumes at least five bytes). -/
def decode_all_fuel : Nat → Bytes → Except String (List Bytes)
  | _, [] => .ok []
  | 0, _ => .error "InvalidBSON"
  | fuel + 1, buf =>
    if buf.length < 4 then .error "InvalidBSON"
    else
      let size := readU32 buf
      if size < 5 ∨ buf.length < size then .error "InvalidBSON"
      else
        let doc := buf.take size
        if doc.getLast? ≠ some 0 then .error "InvalidBSON"
        else do
          let rest ← decode_all_fuel fuel (buf.drop size)
          .ok (doc :: rest)

def decode_all (buf : Bytes) : Except String (List Bytes) :=
  decode_all_fuel buf.length buf

/-- `selector_fields[0]`: Python list indexing raises `IndexError` on an
empty list. -/
def listGet0 (l : List Bytes) : Except String Bytes :=
  match l with
  | [] => .error "IndexError"
  | d :: _ => .ok d

/-- Wire operation codes (identical constant blocks in both files). -/
def OP_REPLY : Int := 1
def OP_MSG : Int := 1000
def OP_UPDATE : Int := 2001
def OP_INSERT : Int := 2002
def OP_RESERVED : Int := 2003
def OP_QUERY : Int := 2004
def OP_GETMORE : Int := 2005
def OP_DELETE : Int := 2006
def OP_KILL_CURSORS : Int := 2007

/-- The domain of `OP_NAMES` (used by `log_stats`; a stats key outside it
raises `KeyError`). -/
def opNames : List Int :=
  [OP_REPLY, OP_MSG, OP_UPDATE, OP_INSERT, OP_RESERVED, OP_QUERY,
   OP_GETMORE, OP_DELETE, OP_KILL_CURSORS]

/-- Scan for the first NUL byte at or after position `i`, walking the
byte suffix structurally (the position counter tracks the original
index). -/
def cstringScan : Bytes → Nat → Except String Nat
  | [], _ => .error "IndexError"
  | b :: rest, i => if b = 0 then .ok i else cstringScan rest (i + 1)

namespace Proxy

/-! ## `mongo_proxy.py` (inline proxy) -/

/-- `MessageHeader` namedtuple; fields decoded with `"<iiii"` (signed). -/
structure MessageHeader where
  length : Int
  request_id : Int
  response_to : Int
  operation : Int
deriving DecidableEq, Repr

/-- `MongoProxy.extract_header`: raises `"Bad header"` unless the buffer
is exactly 16 bytes, then unpacks four signed little-endian 32-bit
fields.  No validation of `total_length` is performed. -/
def extract_header (resp : Bytes) : Except String MessageHeader :=
  if resp.length ≠ 16 then .error "Bad header"
  else .ok ⟨toI32 (readU32 resp), toI32 (readU32 (resp.drop 4)),
            toI32 (readU32 (resp.drop 8)), toI32 (readU32 (resp.drop 12))⟩

/-- `MongoProxy._extract_cstring`: advance while the current byte is
non-zero; the byte is indexed before the bound is checked, so running off
the end raises `IndexError`.  Returns the index of the NUL byte. -/
def extract_cstring (buf : Bytes) (i : Nat) : Except String Nat :=
  cstringScan (buf.drop i) i

structure QueryMessage where
  header : MessageHeader
  collection : Bytes
  flags : Int
  skip : Int
  to_return : Int
  query : Bytes
  fields : Bytes
deriving DecidableEq, Repr

structure UpdateMessage where
  header : MessageHeader
  collection : Bytes
  flags : Int
  selector : Bytes
  update : Bytes
deriving DecidableEq, Repr

structure DeleteMessage where
  header : MessageHeader
  collection : Bytes
  flags : Int
  selector : List Bytes
deriving DecidableEq, Repr

structure InsertMessage where
  header : MessageHeader
  flags : Int
  collection : Bytes
  documents : List Bytes
deriving DecidableEq, Repr

structure MoreMessage where
  header : MessageHeader
  collection : Bytes
  to_return : Int
  cursor_id : Nat
deriving DecidableEq, Repr

structure ReplyMessage where
  header : MessageHeader
  flags : Int
  cursor_id : Nat
  starting_from : Int
  number_returned : Int
  documents : List Bytes
deriving DecidableEq, Repr

/-- Decode portion of `MongoProxy.handle_update` (lines 382–398); the
listener/forwarding effects are handled by the session model below. -/
def parse_update (header : MessageHeader) (buf : Bytes) :
    Except String UpdateMessage := do
  let ns_end ← extract_cstring buf 20
  let collection := pySlice buf 20 ns_end
  let flags ← unpack_i32 (pySlice buf ns_end (ns_end + 4))
  let selector_fields ← decode_all (buf.drop (ns_end + 4 + 1))
  let selector ← listGet0 selector_fields
  let update := match selector_fields with
    | [_, u] => u
    | _ => emptyDoc
  .ok ⟨header, collection, flags, selector, update⟩

/-- Decode portion of `MongoProxy.handle_delete`. -/
def parse_delete (header : MessageHeader) (buf : Bytes) :
    Except String DeleteMessage := do
  let ns_end ← extract_cstring buf 20
  let collection := pySlice buf 20 ns_end
  let flags ← unpack_i32 (pySlice buf ns_end (ns_end + 4))
  let selector ← decode_all (buf.drop (ns_end + 4 + 1))
  .ok ⟨header, collection, flags, selector⟩

/-- Decode portion of `MongoProxy.handle_insert`. -/
def parse_insert (header : MessageHeader) (buf : Bytes) :
    Except String InsertMessage := do
  let flags ← unpack_i32 (pySlice buf 16 20)
  let ns_end ← extract_cstring buf 20
  let collection := pySlice buf 20 ns_end
  let documents ← decode_all (buf.drop (ns_end + 1))
  .ok ⟨header, flags, collection, documents⟩

/-- Decode portion of `MongoProxy.handle_query` (lines 400–414). -/
def parse_query (header : MessageHeader) (buf : Bytes) :
    Except String QueryMessage := do
  let flags ← unpack_i32 (pySlice buf 16 20)
  let ns_end0 ← extract_cstring buf 20
  let collection := pySlice buf 20 ns_end0
  let ns_end := ns_end0 + 1
  let skip ← unpack_i32 (pySlice buf ns_end (ns_end + 4))
  let count ← unpack_i32 (pySlice buf (ns_end + 4) (ns_end + 8))
  let selector_fields ← decode_all (buf.drop (ns_end + 8))
  let selector ← listGet0 selector_fields
  let fields := match selector_fields with
    | [_, f] => f
    | _ => emptyDoc
  .ok ⟨header, collection, flags, skip, count, selector, fields⟩

/-- Decode portion of `MongoProxy.handle_more`. -/
def parse_more (header : MessageHeader) (buf : Bytes) :
    Except String MoreMessage := do
  let ns_end0 ← extract_cstring buf 20
  let collection := pySlice buf 20 ns_end0
  let ns_end := ns_end0 + 1
  let count ← unpack_i32 (pySlice buf ns_end (ns_end + 4))
  let cursor_id ← unpack_u64 (pySlice buf (ns_end + 4) (ns_end + 12))
  .ok ⟨header, collection, count, cursor_id⟩

/-- Decode portion of `MongoProxy.handle_reply` (unpack `"<iqii"` at
16..36, then documents). -/
def parse_reply (header : MessageHeader) (resp : Bytes) :
    Except String ReplyMessage := do
  let sl := pySlice resp 16 36
  if sl.length ≠ 20 then .error "struct.error"
  else do
    let r_flags := toI32 (readU32 sl)
    let r_cursor := readU64 (sl.drop 4)
    let r_from := toI32 (readU32 (sl.drop 12))
    let r_count := toI32 (readU32 (sl.drop 16))
    let docs ← decode_all (resp.drop 36)
    .ok ⟨header, r_flags, r_cursor, r_from, r_count, docs⟩

end Proxy

namespace Sniff

/-! ## `mongo_sniff.py` (offline sniffer) -/

/-- `MessageHeader` decoded with `"<IIII"` (unsigned). -/
structure MessageHeader where
  length : Nat
  request_id : Nat
  response_to : Nat
  operation : Nat
deriving DecidableEq, Repr

/-- `MongoProxy.extract_header` of the sniffer: raises `"Bad header"`
for buffers shorter than 16 bytes, then unpacks four unsigned
little-endian 32-bit fields.  No validation of `total_length`. -/
def extract_header (resp : Bytes) : Except String MessageHeader :=
  if resp.length < 16 then .error "Bad header"
  else .ok ⟨readU32 resp, readU32 (resp.drop 4),
            readU32 (resp.drop 8), readU32 (resp.drop 12)⟩

/-- Sniffer `_extract_cstring`: same scan as the proxy's but returns the
index one past the NUL byte. -/
def extract_cstring (buf : Bytes) (i : Nat) : Except String Nat :=
  (cstringScan (buf.drop i) i).map (· + 1)

structure UpdateMessage where
  header : MessageHeader
  collection : Bytes
  flags : Nat
  selector : Bytes
  update : Bytes
deriving DecidableEq, Repr

structure QueryMessage where
  header : MessageHeader
  collection : Bytes
  flags : Nat
  skip : Nat
  to_return : Nat
  query : Bytes
  fields : Bytes
deriving DecidableEq, Repr

/-- `MongoProxy._parse_update` (lines 497–509); note `flags >>= 8`. -/
def parse_update (header : MessageHeader) (buf : Bytes) :
    Except String UpdateMessage := do
  let ns_end ← extract_cstring buf 20
  let collection := pySlice buf 20 (ns_end - 1)
  let flags0 ← unpack_u32 (pySlice buf ns_end (ns_end + 4))
  let flags := flags0 / 256
  let selector_fields ← decode_all (buf.drop (ns_end + 4))
  let selector ← listGet0 selector_fields
  let update := match selector_fields with
    | [_, u] => u
    | _ => emptyDoc
  .ok ⟨header, collection, flags, selector, update⟩

/-- `MongoProxy._parse_query` (lines 519–533). -/
def parse_query (header : MessageHeader) (buf : Bytes) :
    Except String QueryMessage := do
  let flags ← unpack_u32 (pySlice buf 16 20)
  let ns_end ← extract_cstring buf 20
  let collection := pySlice buf 20 (ns_end - 1)
  let skip ← unpack_u32 (pySlice buf ns_end (ns_end + 4))
  let count ← unpack_u32 (pySlice buf (ns_end + 4) (ns_end + 8))
  let selector_fields ← decode_all (buf.drop (ns_end + 8))
  let selector ← listGet0 selector_fields
  let fields := match selector_fields with
    | [_, f] => f
    | _ => emptyDoc
  .ok ⟨header, collection, flags, skip, count, selector, fields⟩

end Sniff

/-! ## Concrete wire frames used by witnesses and counterexamples -/

/-- A complete OP_UPDATE frame: header `{len=33, req=7, resp=0, op=2001}`,
reserved ZERO, namespace `"a.b"`, wire flags `1` (UPSERT), one empty
selector document. -/
def updFrame : Bytes :=
  [33,0,0,0, 7,0,0,0, 0,0,0,0, 209,7,0,0] ++ [0,0,0,0] ++
  [97,46,98,0] ++ [1,0,0,0] ++ [5,0,0,0,0]

/-- A complete OP_QUERY frame whose document section holds THREE empty
documents: header `{len=47, req=8, resp=0, op=2004}`, flags 0, namespace
`"a.b"`, skip 0, to_return 0, three 5-byte documents. -/
def qryFrame3 : Bytes :=
  [47,0,0,0, 8,0,0,0, 0,0,0,0, 212,7,0,0] ++ [0,0,0,0] ++
  [97,46,98,0] ++ [0,0,0,0] ++ [0,0,0,0] ++
  [5,0,0,0,0] ++ [5,0,0,0,0] ++ [5,0,0,0,0]

/-! ## C2 — header decode validation -/

/-- C2 (counterexample): the claim says a buffer of at least 16 bytes
whose decoded `total_length` is below 16 yields a frame error.  It does
not: sixteen zero bytes decode to `total_length = 0` yet both tools
return a `Header` value, not an error. -/
theorem c2_header_no_length_check :
    Sniff.extract_header (List.replicate 16 0) = .ok ⟨0, 0, 0, 0⟩ ∧
    Proxy.extract_header (List.replicate 16 0) = .ok ⟨0, 0, 0, 0⟩ := by
  decide

/-- C2 (amended): header decode rejects every buffer shorter than 16
bytes (the inline proxy rejects every buffer whose length is not exactly
16); for a buffer of at least 16 bytes the sniffer always returns the
decoded `Header`, with no validation of `total_length` whatsoever. -/
theorem c2_header_decode_amended (b : Bytes) :
    (b.length < 16 → Proxy.extract_header b = .error "Bad header" ∧
      Sniff.extract_header b = .error "Bad header") ∧
    (b.length ≠ 16 → Proxy.extract_header b = .error "Bad header") ∧
    (16 ≤ b.length → Sniff.extract_header b =
      .ok ⟨readU32 b, readU32 (b.drop 4), readU32 (b.drop 8),
           readU32 (b.drop 12)⟩) := by
  unfold Proxy.extract_header Sniff.extract_header
  refine ⟨fun h => ⟨?_, ?_⟩, fun h => ?_, fun h => ?_⟩
  · rw [if_pos (by omega)]
  · rw [if_pos h]
  · rw [if_pos h]
  · rw [if_neg (by omega)]

/-- C2 witness: the amended theorem applied at a 15-byte and a 16-byte
buffer. -/
theorem c2_header_decode_amended_witness :
    Sniff.extract_header (List.replicate 15 7) = .error "Bad header" ∧
    Sniff.extract_header (List.replicate 16 0) = .ok ⟨0, 0, 0, 0⟩ :=
  ⟨((c2_header_decode_amended (List.replicate 15 7)).1 (by decide)).2,
   by
    have h := (c2_header_decode_amended (List.replicate 16 0)).2.2 (by decide)
    simpa using h⟩

/-! ## C6 — Update decode layout -/

/-- C6 (code bug): on a well-formed OP_UPDATE frame whose wire flags
field (the four bytes immediately after the namespace terminator, at
offset 24) holds `1` (UPSERT), the inline proxy decodes `flags = 256`:
`handle_update` unpacks the four bytes *starting at* the NUL terminator
instead of the four bytes after it.  The sniffer reads the right four
bytes but then shifts the value right by 8 bits, decoding `flags = 0`.
Namespace, selector and the empty-update default all decode as the claim
states. -/
theorem c6_update_flags_misdecoded :
    Proxy.extract_header (updFrame.take 16) = .ok ⟨33, 7, 0, 2001⟩ ∧
    readU32 ((updFrame.drop 24).take 4) = 1 ∧
    Proxy.parse_update ⟨33, 7, 0, 2001⟩ updFrame =
      .ok ⟨⟨33, 7, 0, 2001⟩, [97, 46, 98], 256, emptyDoc, emptyDoc⟩ ∧
    Sniff.parse_update ⟨33, 7, 0, 2001⟩ updFrame =
      .ok ⟨⟨33, 7, 0, 2001⟩, [97, 46, 98], 0, emptyDoc, emptyDoc⟩ := by
  decide

/-! ## C7 — more than two embedded documents -/

/-- C7 (counterexample): a Query whose document section holds three
documents does not produce a frame error; both decoders return a
`Message` value (the extra document is silently ignored and the
projection defaults to the empty document). -/
theorem c7_three_docs_decode_ok :
    decode_all (qryFrame3.drop 32) = .ok [emptyDoc, emptyDoc, emptyDoc] ∧
    Proxy.parse_query ⟨47, 8, 0, 2004⟩ qryFrame3 =
      .ok ⟨⟨47, 8, 0, 2004⟩, [97, 46, 98], 0, 0, 0, emptyDoc, emptyDoc⟩ ∧
    Sniff.parse_query ⟨47, 8, 0, 2004⟩ qryFrame3 =
      .ok ⟨⟨47, 8, 0, 2004⟩, [97, 46, 98], 0, 0, 0, emptyDoc, emptyDoc⟩ := by
  decide

/-- C7 (amended): when the document section of a Query or an Update
decodes to three or more documents, decoding still succeeds: the first
document becomes the selector, the second-document slot (projection
resp. update) is left at the empty-document default, and the extra
documents are ignored. -/
theorem c7_extra_docs_ignored (hq hu : Proxy.MessageHeader)
    (bufq bufu : Bytes) (n m : Nat) (d e : Bytes) (L M : List Bytes)
    (hcs : Proxy.extract_cstring bufq 20 = .ok n)
    (hf : (pySlice bufq 16 20).length = 4)
    (hs : (pySlice bufq (n + 1) (n + 1 + 4)).length = 4)
    (hc : (pySlice bufq (n + 1 + 4) (n + 1 + 8)).length = 4)
    (hd : decode_all (bufq.drop (n + 1 + 8)) = .ok (d :: L))
    (hL : 2 ≤ L.length)
    (hcs2 : Proxy.extract_cstring bufu 20 = .ok m)
    (hf2 : (pySlice bufu m (m + 4)).length = 4)
    (hd2 : decode_all (bufu.drop (m + 4 + 1)) = .ok (e :: M))
    (hM : 2 ≤ M.length) :
    Proxy.parse_query hq bufq =
      .ok ⟨hq, pySlice bufq 20 n, toI32 (readU32 (pySlice bufq 16 20)),
           toI32 (readU32 (pySlice bufq (n + 1) (n + 1 + 4))),
           toI32 (readU32 (pySlice bufq (n + 1 + 4) (n + 1 + 8))),
           d, emptyDoc⟩ ∧
    Proxy.parse_update hu bufu =
      .ok ⟨hu, pySlice bufu 20 m, toI32 (readU32 (pySlice bufu m (m + 4))),
           e, emptyDoc⟩ := by
  constructor
  · unfold Proxy.parse_query
    simp only [unpack_i32, hf, ite_true, ok_bind, hcs]
    simp only [unpack_i32, hs, hc, ite_true, ok_bind, hd, listGet0]
    match L, hL with
    | a :: b :: t, _ => rfl
  · unfold Proxy.parse_update
    simp only [hcs2, ok_bind]
    simp only [unpack_i32, hf2, ite_true, ok_bind, hd2, listGet0]
    match M, hM with
    | a :: b :: t, _ => rfl

/-- An OP_UPDATE frame whose document section holds THREE empty
documents. -/
def updFrame3 : Bytes :=
  [43,0,0,0, 9,0,0,0, 0,0,0,0, 209,7,0,0] ++ [0,0,0,0] ++
  [97,46,98,0] ++ [1,0,0,0] ++
  [5,0,0,0,0] ++ [5,0,0,0,0] ++ [5,0,0,0,0]

/-- C7 witness: the amended theorem at the concrete three-document query
and update frames. -/
theorem c7_extra_docs_ignored_witness :
    Proxy.parse_query ⟨47, 8, 0, 2004⟩ qryFrame3 =
      .ok ⟨⟨47, 8, 0, 2004⟩, [97, 46, 98], 0, 0, 0, emptyDoc, emptyDoc⟩ ∧
    Proxy.parse_update ⟨43, 9, 0, 2001⟩ updFrame3 =
      .ok ⟨⟨43, 9, 0, 2001⟩, [97, 46, 98], 256, emptyDoc, emptyDoc⟩ := by
  have h := c7_extra_docs_ignored ⟨47, 8, 0, 2004⟩ ⟨43, 9, 0, 2001⟩
    qryFrame3 updFrame3 23 23
    emptyDoc emptyDoc [emptyDoc, emptyDoc] [emptyDoc, emptyDoc]
    (by decide) (by decide) (by decide) (by decide) (by decide) (by decide)
    (by decide) (by decide) (by decide) (by decide)
  simpa using h

namespace Sniff

/-! ## Reassembly (`MongoProxy._reassemble_if_possible`, lines 543–601)

The per-source state `self.pdus[src]` is the pending list of
`(ip_identifier, payload)` pairs for the one source endpoint under
consideration.  `curId` is `ip_hdr.get_ip_id()` of the packet being
ingested (the id the code attaches to a pushed-back left-over buffer).
The two data-dependent loops carry fuel; `.spin` marks an input on which
the Python loop would not terminate, `.exn` a propagating exception. -/

inductive StepRes (α : Type) where
  | ok (a : α)
  | exn
  | spin
deriving DecidableEq, Repr

/-- Prepend already-collected chunks to a loop result (an exception
discards `mongo_chunks`, as in the source). -/
def mapChunks (cs : List Bytes) :
    StepRes (List Bytes × List (Nat × Bytes)) →
    StepRes (List Bytes × List (Nat × Bytes))
  | .ok (c, p) => .ok (cs ++ c, p)
  | .exn => .exn
  | .spin => .spin

/-- `sorted(pdu_list)`: Python sorts the `(id, payload)` tuples
lexicographically; identifiers are compared first, so sorting by
identifier (stable) agrees with the source whenever identifiers are
distinct, which holds in every run considered here. -/
def sortPdus (l : List (Nat × Bytes)) : List (Nat × Bytes) :=
  l.insertionSort (fun a b => a.1 ≤ b.1)

/-- The `idx` computed by the inner walk: length of the maximal chain of
consecutive identifiers from the head (`pdu_list[idx][0] ==
pdu_list[idx+1][0] - 1`; with Python integer semantics `a == b - 1` is
`a + 1 == b` on non-negative ids). -/
def runLen : List (Nat × Bytes) → Nat
  | (a, _) :: (b, y) :: rest =>
      if a + 1 = b then runLen ((b, y) :: rest) + 1 else 0
  | _ => 0

/-- The message-peeling inner loop (lines 581–585): while the buffer is
longer than the header's `total_length`, slice one message off and
re-extract a header from the remainder (raising if fewer than 16 bytes
remain).  Returns the peeled chunks, the remaining buffer and the last
extracted header length. -/
def peelLoop (fuel : Nat) (buf : Bytes) (hlen : Nat) :
    StepRes (List Bytes × Bytes × Nat) :=
  if hlen < buf.length then
    match fuel with
    | 0 => .spin
    | fuel + 1 =>
      let chunk := buf.take hlen
      let buf' := buf.drop hlen
      match extract_header buf' with
      | .error _ => .exn
      | .ok h' =>
        match peelLoop fuel buf' h'.length with
        | .ok (cs, b, hl) => .ok (chunk :: cs, b, hl)
        | .exn => .exn
        | .spin => .spin
  else .ok ([], buf, hlen)


/-- The outer `while len(pdu_list) > 0` loop (lines 561–599).  One
iteration: take the maximal contiguous run from the head (the whole list
when the head pair is not contiguous), concatenate it, peel complete
messages, push back an incomplete left-over under the current packet id,
then the final single-fragment check — whose emit branch clears
`self.pdus` but leaves the local `pdu_list` untouched, so the loop runs
one more iteration over the stale list and emits the fragment again. -/
def reasmLoop : Nat → List (Nat × Bytes) → Nat →
    StepRes (List Bytes × List (Nat × Bytes))
  | _, [], _ => .ok ([], [])
  | 0, _ :: _, _ => .spin
  | fuel + 1, p :: ps, curId =>
    let pl := p :: ps
    let idx := runLen pl
    let packets := if idx > 0 then pl.take (idx + 1) else pl
    let rest := if idx > 0 then pl.drop (idx + 1) else []
    let buf := (packets.map Prod.snd).flatten
    if 16 < buf.length then
      match extract_header buf with
      | .error _ => .exn
      | .ok hdr =>
        match peelLoop (buf.length + 1) buf hdr.length with
        | .spin => .spin
        | .exn => .exn
        | .ok (chunks1, buf', hlen') =>
          let emitted := hlen' = buf'.length
          let chunks2 := if emitted then chunks1 ++ [buf'] else chunks1
          let rest' := if emitted then rest else rest ++ [(curId, buf')]
          match rest' with
          | [(_, pdata)] =>
            if 16 < pdata.length then
              match extract_header pdata with
              | .error _ => .exn
              | .ok hdr2 =>
                if hdr2.length = pdata.length then
                  mapChunks (chunks2 ++ [pdata]) (reasmLoop fuel rest' curId)
                else .ok (chunks2, rest')
            else mapChunks chunks2 (reasmLoop fuel rest' curId)
          | _ => mapChunks chunks2 (reasmLoop fuel rest' curId)
    else
      match rest with
      | [(_, pdata)] =>
        if 16 < pdata.length then
          match extract_header pdata with
          | .error _ => .exn
          | .ok hdr2 =>
            if hdr2.length = pdata.length then
              mapChunks [pdata] (reasmLoop fuel rest curId)
            else .ok ([], rest)
        else mapChunks [] (reasmLoop fuel rest curId)
      | _ => mapChunks [] (reasmLoop fuel rest curId)


/-- `_reassemble_if_possible` restricted to one source endpoint:
`pending` is `self.pdus[src]`, `ipId` the arriving packet's IP
identifier, `data` its TCP payload.  Returns the emitted message chunks
and the new pending list. -/
def reassemble (fuel : Nat) (pending : List (Nat × Bytes)) (ipId : Nat)
    (data : Bytes) : StepRes (List Bytes × List (Nat × Bytes)) :=
  if data.length ≤ 16 then .ok ([], pending)
  else
    match extract_header data with
    | .error _ => .exn
    | .ok hdr =>
      if hdr.length = data.length then .ok ([data], pending)
      else reasmLoop fuel (sortPdus (pending ++ [(ipId, data)])) ipId

/-- Ingest a sequence of `(ip_identifier, payload)` packets in arrival
order, accumulating emitted messages. -/
def ingestAll (fuel : Nat) (pending : List (Nat × Bytes)) :
    List (Nat × Bytes) → StepRes (List Bytes × List (Nat × Bytes))
  | [] => .ok ([], pending)
  | (i, d) :: rest =>
    match reassemble fuel pending i d with
    | .ok (cs, p') => mapChunks cs (ingestAll fuel p' rest)
    | .exn => .exn
    | .spin => .spin

end Sniff

/-! ## C4 / C8 — reassembly -/

theorem readU32_append : ∀ (a b : Bytes), 4 ≤ a.length →
    readU32 (a ++ b) = readU32 a
  | _ :: _ :: _ :: _ :: _, _, _ => rfl
  | [], _, h => absurd h (by simp)
  | [_], _, h => absurd h (by simp)
  | [_, _], _, h => absurd h (by simp)
  | [_, _, _], _, h => absurd h (by simp)

theorem sniff_header_ok (b : Bytes) (h : 16 ≤ b.length) :
    Sniff.extract_header b =
      .ok ⟨readU32 b, readU32 (b.drop 4), readU32 (b.drop 8),
           readU32 (b.drop 12)⟩ := by
  unfold Sniff.extract_header
  rw [if_neg (by omega)]

theorem peelLoop_noop (F : Nat) (buf : Bytes) (hlen : Nat)
    (h : ¬ hlen < buf.length) :
    Sniff.peelLoop F buf hlen = .ok ([], buf, hlen) := by
  unfold Sniff.peelLoop
  rw [if_neg h]

theorem sortPdus_single (p : Nat × Bytes) : Sniff.sortPdus [p] = [p] := rfl

theorem sortPdus_pair (a b : Nat × Bytes) (h : a.1 ≤ b.1) :
    Sniff.sortPdus [a, b] = [a, b] := by
  simp [Sniff.sortPdus, List.insertionSort, List.orderedInsert, h]

theorem reasm_first (k : Nat) (f : Bytes) (T : Nat) (h : 16 < f.length)
    (hT : readU32 f = T) (hne : f.length < T) :
    Sniff.reassemble 2 [] k f = .ok ([], [(k, f)]) := by
  unfold Sniff.reassemble
  rw [if_neg (by omega), sniff_header_ok f (by omega)]
  simp only [hT]
  rw [if_neg (by omega)]
  rw [show Sniff.sortPdus ([] ++ [(k, f)]) = [(k, f)] from rfl]
  unfold Sniff.reasmLoop
  simp only [Sniff.runLen, gt_iff_lt, lt_self_iff_false, if_false,
    List.map, List.flatten, List.append_nil, if_neg (by omega : ¬ (0:Nat) > 0)]
  rw [if_pos h]
  simp only [sniff_header_ok f (by omega : 16 ≤ f.length), hT]
  rw [peelLoop_noop _ _ _ (by omega : ¬ T < f.length)]
  simp only [if_neg (by omega : ¬ T = f.length), List.nil_append]
  rw [if_pos h]
  simp only [sniff_header_ok f (by omega : 16 ≤ f.length), hT]
  rw [if_neg (by omega : ¬ T = f.length)]

theorem reasm_step_incomplete (kp : Nat) (P f : Bytes) (T : Nat)
    (hP : 16 < P.length) (hf : 16 < f.length)
    (hPread : readU32 P = T)
    (hgarb : readU32 f ≠ f.length)
    (hlt : P.length + f.length < T) :
    Sniff.reassemble 2 [(kp, P)] (kp + 1) f =
      .ok ([], [(kp + 1, P ++ f)]) := by
  unfold Sniff.reassemble
  rw [if_neg (by omega), sniff_header_ok f (by omega)]
  simp only [if_neg hgarb]
  rw [show [(kp, P)] ++ [(kp + 1, f)] = [(kp, P), (kp + 1, f)] from rfl,
    sortPdus_pair (kp, P) (kp + 1, f) (by omega)]
  unfold Sniff.reasmLoop
  simp only [Sniff.runLen, if_pos rfl, gt_iff_lt, Nat.zero_lt_one,
    if_pos (by omega : (0:Nat) < 0 + 1), List.take, List.drop, List.map,
    List.flatten, List.append_nil]
  rw [if_pos (by simp; omega : 16 < (P ++ f).length)]
  simp only [sniff_header_ok (P ++ f) (by simp; omega),
    readU32_append P f (by omega), hPread]
  rw [peelLoop_noop _ _ _ (by simp; omega : ¬ T < (P ++ f).length)]
  simp only [if_neg (by simp; omega : ¬ T = (P ++ f).length), ite_self,
    List.nil_append]
  rw [if_pos (by simp; omega : 16 < (P ++ f).length)]
  simp only [sniff_header_ok (P ++ f) (by simp; omega),
    readU32_append P f (by omega), hPread]
  rw [if_neg (by simp; omega : ¬ T = (P ++ f).length)]

theorem reasm_step_complete (kp : Nat) (P f : Bytes) (T : Nat)
    (hP : 16 < P.length) (hf : 16 < f.length)
    (hPread : readU32 P = T)
    (hgarb : readU32 f ≠ f.length)
    (heq : P.length + f.length = T) :
    Sniff.reassemble 2 [(kp, P)] (kp + 1) f = .ok ([P ++ f], []) := by
  unfold Sniff.reassemble
  rw [if_neg (by omega), sniff_header_ok f (by omega)]
  simp only [if_neg hgarb]
  rw [show [(kp, P)] ++ [(kp + 1, f)] = [(kp, P), (kp + 1, f)] from rfl,
    sortPdus_pair (kp, P) (kp + 1, f) (by omega)]
  unfold Sniff.reasmLoop
  simp only [Sniff.runLen, if_pos rfl, gt_iff_lt, Nat.zero_lt_one,
    if_pos (by omega : (0:Nat) < 0 + 1), List.take, List.drop, List.map,
    List.flatten, List.append_nil]
  rw [if_pos (by simp; omega : 16 < (P ++ f).length)]
  simp only [sniff_header_ok (P ++ f) (by simp; omega),
    readU32_append P f (by omega), hPread]
  rw [peelLoop_noop _ _ _ (by simp; omega : ¬ T < (P ++ f).length)]
  simp only [if_pos (by simp; omega : T = (P ++ f).length), ite_self,
    List.nil_append]
  unfold Sniff.reasmLoop
  simp [Sniff.mapChunks]

theorem reasm_complete (F k : Nat) (pending : List (Nat × Bytes)) (f : Bytes)
    (h : 16 < f.length) (hr : readU32 f = f.length) :
    Sniff.reassemble F pending k f = .ok ([f], pending) := by
  unfold Sniff.reassemble
  rw [if_neg (by omega), sniff_header_ok f (by omega)]
  simp only [hr, eq_self_iff_true, ite_true]

def enumFrom (k : Nat) : List Bytes → List (Nat × Bytes)
  | [] => []
  | d :: rest => (k, d) :: enumFrom (k + 1) rest

theorem ingestAll_cons_ok (fuel : Nat)
    (pending p' : List (Nat × Bytes)) (i : Nat) (d : Bytes)
    (rest : List (Nat × Bytes)) (cs : List Bytes)
    (h : Sniff.reassemble fuel pending i d = .ok (cs, p')) :
    Sniff.ingestAll fuel pending ((i, d) :: rest) =
      Sniff.mapChunks cs (Sniff.ingestAll fuel p' rest) := by
  have hu : Sniff.ingestAll fuel pending ((i, d) :: rest) =
      match Sniff.reassemble fuel pending i d with
      | .ok (cs, p') => Sniff.mapChunks cs (Sniff.ingestAll fuel p' rest)
      | .exn => .exn
      | .spin => .spin := rfl
  rw [hu, h]

theorem ingest_mid : ∀ (fs : List Bytes) (kp : Nat) (P : Bytes),
    16 < P.length → fs ≠ [] →
    (∀ f ∈ fs, 16 < f.length) → (∀ f ∈ fs, readU32 f ≠ f.length) →
    readU32 P = P.length + fs.flatten.length →
    Sniff.ingestAll 2 [(kp, P)] (enumFrom (kp + 1) fs) =
      .ok ([P ++ fs.flatten], [])
  | [], _, _, _, hne, _, _, _ => absurd rfl hne
  | [f], kp, P, hP, _, hall, hgarb, hT => by
    have hf : 16 < f.length := hall f (by simp)
    have hflat : ([f] : List Bytes).flatten = f := by simp
    rw [hflat] at hT ⊢
    rw [show enumFrom (kp + 1) [f] = [(kp + 1, f)] from rfl]
    rw [ingestAll_cons_ok 2 _ _ _ _ _ _
      (reasm_step_complete kp P f (readU32 P) hP hf rfl (hgarb f (by simp))
        (by omega))]
    simp [Sniff.ingestAll, Sniff.mapChunks]
  | f :: g :: gs, kp, P, hP, _, hall, hgarb, hT => by
    have hf : 16 < f.length := hall f (by simp)
    have hg : 16 < g.length := hall g (by simp)
    have hglen : g.length ≤ ((g :: gs).flatten).length := by
      rw [show ((g :: gs).flatten) = g ++ gs.flatten from rfl]
      simp
    have hT' : readU32 P =
        P.length + (f.length + ((g :: gs).flatten).length) := by
      rw [show ((f :: g :: gs).flatten) = f ++ (g :: gs).flatten from rfl]
        at hT
      simpa [List.length_append] using hT
    rw [show enumFrom (kp + 1) (f :: g :: gs) =
      (kp + 1, f) :: enumFrom (kp + 1 + 1) (g :: gs) from rfl]
    rw [ingestAll_cons_ok 2 _ _ _ _ _ _
      (reasm_step_incomplete kp P f (readU32 P) hP hf rfl
        (hgarb f (by simp)) (by omega))]
    rw [ingest_mid (g :: gs) (kp + 1) (P ++ f)
      (by simp [List.length_append]; omega) (by simp)
      (fun x hx => hall x (by simp [hx]))
      (fun x hx => hgarb x (by simp [hx]))
      (by rw [readU32_append P f (by omega), List.length_append]; omega)]
    rw [show ((f :: g :: gs).flatten) = f ++ (g :: gs).flatten from rfl]
    simp [Sniff.mapChunks, List.append_assoc]

theorem c4_in_order (k : Nat) (f0 : Bytes) (fs : List Bytes)
    (h0 : 16 < f0.length)
    (hall : ∀ f ∈ fs, 16 < f.length)
    (hgarb : ∀ f ∈ fs, readU32 f ≠ f.length)
    (hC : readU32 f0 = ((f0 :: fs).flatten).length) :
    Sniff.ingestAll 2 [] (enumFrom k (f0 :: fs)) =
      .ok ([(f0 :: fs).flatten], []) := by
  cases fs with
  | nil =>
    have hflat : ([f0] : List Bytes).flatten = f0 := by simp
    rw [hflat] at hC ⊢
    rw [show enumFrom k [f0] = [(k, f0)] from rfl]
    rw [ingestAll_cons_ok 2 _ _ _ _ _ _ (reasm_complete 2 k [] f0 h0 hC)]
    simp [Sniff.ingestAll, Sniff.mapChunks]
  | cons g gs =>
    have hg : 16 < g.length := hall g (by simp)
    have hglen : g.length ≤ ((g :: gs).flatten).length := by
      rw [show ((g :: gs).flatten) = g ++ gs.flatten from rfl]
      simp
    have hC' : readU32 f0 =
        f0.length + ((g :: gs).flatten).length := by
      rw [show ((f0 :: g :: gs).flatten) = f0 ++ (g :: gs).flatten from rfl]
        at hC
      simpa [List.length_append] using hC
    rw [show enumFrom k (f0 :: g :: gs) =
      (k, f0) :: enumFrom (k + 1) (g :: gs) from rfl]
    rw [ingestAll_cons_ok 2 _ _ _ _ _ _
      (reasm_first k f0 (readU32 f0) h0 rfl (by omega))]
    rw [ingest_mid (g :: gs) k f0 h0 (by simp) hall hgarb (by omega)]
    rw [show ((f0 :: g :: gs).flatten) = f0 ++ (g :: gs).flatten from rfl]
    simp [Sniff.mapChunks]

/-- The three fragments of one 51-byte message, 17 bytes each: `frag0`
carries the real header (`total_length = 51`), `frag1` and `frag2` carry
filler whose leading four bytes do not read back as their own length. -/
def frag0 : Bytes := [51, 0, 0, 0] ++ List.replicate 13 7

def frag1 : Bytes := List.replicate 17 255

def frag2 : Bytes := List.replicate 17 254

/-- C4 (counterexample): the spec's own scenario — fragments with ids
`{100, 101, 102}` arriving in order `{102, 100, 101}`, whose ascending
concatenation is one complete message.  Exactly one message is emitted
and pending ends empty, but the emitted bytes are `frag0 ++ frag2 ++
frag1` — NOT the ascending-identifier concatenation: when the head pair
of the sorted pending list is not contiguous the code concatenates the
whole list anyway, gluing fragment 102 before 101. -/
theorem c4_out_of_order_scrambled :
    Sniff.ingestAll 8 [] [(102, frag2), (100, frag0), (101, frag1)] =
      .ok ([frag0 ++ frag2 ++ frag1], []) ∧
    frag0 ++ frag2 ++ frag1 ≠ frag0 ++ frag1 ++ frag2 := by
  decide

/-- C4 (amended): for fragments of one source whose identifiers form a
contiguous range, each longer than 16 bytes and none of the
non-initial fragments accidentally reading back its own length from its
leading four bytes, whose ascending concatenation is exactly one
complete message, ingesting them in ascending identifier order emits
exactly that concatenation, exactly once, and leaves the pending list
empty.  (Out-of-order arrival is not covered: it can emit a scrambled
concatenation.) -/
theorem c4_in_order_reassembly (k : Nat) (f0 : Bytes) (fs : List Bytes)
    (h0 : 16 < f0.length)
    (hall : ∀ f ∈ fs, 16 < f.length)
    (hgarb : ∀ f ∈ fs, readU32 f ≠ f.length)
    (hC : readU32 f0 = ((f0 :: fs).flatten).length) :
    Sniff.ingestAll 2 [] (enumFrom k (f0 :: fs)) =
      .ok ([(f0 :: fs).flatten], []) :=
  c4_in_order k f0 fs h0 hall hgarb hC

/-- C4 witness: the amended theorem at the three concrete fragments in
ascending order. -/
theorem c4_in_order_reassembly_witness :
    Sniff.ingestAll 2 [] (enumFrom 100 [frag0, frag1, frag2]) =
      .ok ([frag0 ++ frag1 ++ frag2], []) := by
  have h := c4_in_order_reassembly 100 frag0 [frag1, frag2]
    (by decide) (by decide) (by decide) (by decide)
  simpa [List.append_assoc] using h

/-- C8 (counterexample): a 10-byte capture payload ingested into an
empty pending list is NOT held: the whole body of
`_reassemble_if_possible` is guarded by `len(data) > 16`, so the
fragment is silently discarded and pending stays empty. -/
theorem c8_small_fragment_dropped :
    Sniff.reassemble 8 [] 7 (List.replicate 10 1) = .ok ([], []) ∧
    ([] : List (Nat × Bytes)) ≠ [(7, List.replicate 10 1)] := by
  decide

/-- C8 (amended): every ingested capture payload of at most 16 bytes is
discarded — no message is emitted, the per-source pending list is left
exactly as it was (the fragment is not buffered), and no header decode
is attempted (header decoding only happens for payloads or concatenated
runs longer than 16 bytes). -/
theorem c8_small_payload_discarded (fuel : Nat)
    (pending : List (Nat × Bytes)) (ipId : Nat) (data : Bytes)
    (h : data.length ≤ 16) :
    Sniff.reassemble fuel pending ipId data = .ok ([], pending) := by
  unfold Sniff.reassemble
  rw [if_pos h]

/-- C8 witness: the amended theorem at a 12-byte payload over a
non-empty pending list. -/
theorem c8_small_payload_discarded_witness :
    Sniff.reassemble 3 [(4, frag1)] 9 (List.replicate 12 2) =
      .ok ([], [(4, frag1)]) :=
  c8_small_payload_discarded 3 [(4, frag1)] 9 (List.replicate 12 2)
    (by decide)

/-! ## C3 — correlation (`TimingListener` of `mongo_sniff.py`)

`TimingListener._before` stores the whole envelope under its
`request_id`; `_after` (lines 299–410) pairs a Reply with the stored
request via `response_to`, prints one log line (the latency event) and
deletes the `response_to` and `request_id` entries.  The JS-shell string
built for the log line is elided from the model: `_json` catches its own
exceptions, so the only failure points of `_after` are the ones modelled
below — the `KeyError` on an unknown `response_to`, the `ValueError`
from `collection.index(".")`, the `AttributeError` from reading
`cursor_id` (resp. `collection`) off a message that lacks it, and the
`NameError` on an operation outside the dispatched set.  Capture
timestamps are microsecond counts; endpoints are opaque numbers. -/

namespace Sniff

inductive SnMsg where
  | query (collection : Bytes) (to_return : Nat)
  | more (collection : Bytes) (cursor_id : Nat)
  | insert (collection : Bytes)
  | update (collection : Bytes) (flags : Nat)
  | delete (collection : Bytes)
  | reply
deriving DecidableEq, Repr

structure Envelope where
  header : MessageHeader
  message : SnMsg
  ts : Nat
  src : Nat
  dst : Nat
deriving DecidableEq, Repr

structure LatEv where
  stop : Nat
  src : Nat
  dst : Nat
  db : Bytes
  dur : Int
deriving DecidableEq, Repr

def collectionOf : SnMsg → Except String Bytes
  | .query c _ => .ok c
  | .more c _ => .ok c
  | .insert c => .ok c
  | .update c _ => .ok c
  | .delete c => .ok c
  | .reply => .error "AttributeError"

def splitNs (c : Bytes) : Except String (Bytes × Bytes) :=
  match c.indexOf? 46 with
  | none => .error "ValueError"
  | some i => .ok (c.take i, c.drop (i + 1))

def reqLookup (reqs : List (Nat × Envelope)) (k : Nat) : Option Envelope :=
  match reqs.find? (fun p => p.1 = k) with
  | some p => some p.2
  | none => none

def reqErase (reqs : List (Nat × Envelope)) (k : Nat) : List (Nat × Envelope) :=
  reqs.filter (fun p => p.1 ≠ k)

def tl_before (reqs : List (Nat × Envelope)) (env : Envelope) :
    List (Nat × Envelope) :=
  reqErase reqs env.header.request_id ++ [(env.header.request_id, env)]

def tl_after (reqs : List (Nat × Envelope)) (msg : Envelope) :
    List LatEv × List (Nat × Envelope) × Bool :=
  let start := match reqLookup reqs msg.header.response_to with
    | some q => q.ts
    | none => 0
  let stop := msg.ts
  let dur : Int := if start ≠ 0 ∧ stop ≠ 0 then (stop : Int) - start else 0
  if msg.header.operation = 2004 then ([], reqs, false)
  else
    let branch : Except String (Nat × Nat × Bytes) :=
      if msg.header.operation = 2005 ∨ msg.header.operation = 2002 ∨
          msg.header.operation = 2001 ∨ msg.header.operation = 2006 then do
        let c ← collectionOf msg.message
        let (db, _) ← splitNs c
        .ok (msg.src, msg.dst, db)
      else if msg.header.operation = 1 then
        match reqLookup reqs msg.header.response_to with
        | none => .error "KeyError"
        | some q => do
          let c ← collectionOf q.message
          let (db, _) ← splitNs c
          match q.message with
          | .query _ _ => .ok (q.src, q.dst, db)
          | .more _ _ => .ok (q.src, q.dst, db)
          | _ => .error "AttributeError"
      else .error "NameError"
    match branch with
    | .error _ => ([], reqs, true)
    | .ok (s, d, db) =>
      let ev : LatEv := ⟨stop, s, d, db, dur⟩
      let reqs1 := if (reqLookup reqs msg.header.response_to).isSome then
        reqErase reqs msg.header.response_to else reqs
      let reqs2 := if (reqLookup reqs1 msg.header.request_id).isSome then
        reqErase reqs1 msg.header.request_id else reqs1
      ([ev], reqs2, false)

end Sniff

/-- A pending Delete request stored under request id 5, a Reply whose
`response_to` is 5, a pending Query under id 42 and a Reply to it. -/
def delEnv : Sniff.Envelope := ⟨⟨30, 5, 0, 2006⟩, .delete [97, 46, 98], 1000, 11, 22⟩
def replyEnv5 : Sniff.Envelope := ⟨⟨40, 77, 5, 1⟩, .reply, 2000, 22, 11⟩
def qryEnv : Sniff.Envelope := ⟨⟨40, 42, 0, 2004⟩, .query [97, 46, 98] 0, 1000, 11, 22⟩
def replyEnv42 : Sniff.Envelope := ⟨⟨60, 77, 42, 1⟩, .reply, 2500, 22, 11⟩


theorem find?_filter_ne_none (k : Nat) :
    ∀ l : List (Nat × Sniff.Envelope),
      (l.filter (fun p => p.1 ≠ k)).find? (fun p => p.1 = k) = none
  | [] => rfl
  | p :: t => by
    by_cases h : p.1 = k
    · simpa [List.filter_cons, h] using find?_filter_ne_none k t
    · simpa [List.filter_cons, h, List.find?_cons_of_neg]
        using find?_filter_ne_none k t

theorem reqLookup_erase_self (l : List (Nat × Sniff.Envelope)) (k : Nat) :
    Sniff.reqLookup (Sniff.reqErase l k) k = none := by
  simp only [Sniff.reqLookup, Sniff.reqErase]
  rw [find?_filter_ne_none]

theorem find?_none_filter (k k2 : Nat) :
    ∀ l : List (Nat × Sniff.Envelope),
      l.find? (fun p => p.1 = k) = none →
      (l.filter (fun p => p.1 ≠ k2)).find? (fun p => p.1 = k) = none
  | [], _ => rfl
  | p :: t, h => by
    by_cases hk : p.1 = k
    · simp [List.find?_cons_of_pos, hk] at h
    · have ht : t.find? (fun p => decide (p.1 = k)) = none := by
        simpa [List.find?_cons_of_neg, hk] using h
      by_cases hk2 : p.1 = k2
      · simpa [List.filter_cons, hk2] using find?_none_filter k k2 t ht
      · simpa [List.filter_cons, hk2, List.find?_cons_of_neg, hk]
          using find?_none_filter k k2 t ht

theorem reqLookup_none_erase (l : List (Nat × Sniff.Envelope)) (k k2 : Nat)
    (h : Sniff.reqLookup l k = none) :
    Sniff.reqLookup (Sniff.reqErase l k2) k = none := by
  simp only [Sniff.reqLookup, Sniff.reqErase] at h ⊢
  cases hf : l.find? (fun p => decide (p.1 = k)) with
  | none => rw [find?_none_filter k k2 l hf]
  | some p => rw [hf] at h; simp at h

/-- C3 (amended): offline correlator.  A Reply whose `response_to`
matches no pending request emits zero latency events and leaves the
pending map untouched (the lookup raises `KeyError`, which the
dispatcher swallows).  A Reply whose `response_to` matches a pending
Query or GetMore request whose namespace contains a `.` emits exactly
one latency event, raises nothing, and removes the pending entry for
that request id.  (A Reply matching a pending Insert/Update/Delete — an
operation that never receives a wire-level reply — instead raises
`AttributeError` inside the listener: zero events, entry NOT removed;
see the counterexample.) -/
theorem c3_reply_correlation_amended (reqs : List (Nat × Sniff.Envelope)) (r : Sniff.Envelope)
    (hop : r.header.operation = 1) :
    (Sniff.reqLookup reqs r.header.response_to = none →
      Sniff.tl_after reqs r = ([], reqs, true)) ∧
    (∀ q c i, Sniff.reqLookup reqs r.header.response_to = some q →
      ((∃ t, q.message = Sniff.SnMsg.query c t) ∨
        (∃ cid, q.message = Sniff.SnMsg.more c cid)) →
      c.indexOf? 46 = some i →
      (Sniff.tl_after reqs r).1.length = 1 ∧
      (Sniff.tl_after reqs r).2.2 = false ∧
      Sniff.reqLookup (Sniff.tl_after reqs r).2.1 r.header.response_to =
        none) := by
  constructor
  · intro hnone
    unfold Sniff.tl_after
    rw [hop]
    simp only [hnone]
    simp
  · intro q c i hlook hkind hdot
    unfold Sniff.tl_after
    rw [hop]
    simp only [hlook]
    have hcol : Sniff.collectionOf q.message = .ok c := by
      rcases hkind with ⟨t, hq⟩ | ⟨cid, hq⟩ <;> simp [hq, Sniff.collectionOf]
    have hbranch :
        (match q.message with
          | Sniff.SnMsg.query _ _ => Except.ok (ε := String) (q.src, q.dst, c.take i)
          | Sniff.SnMsg.more _ _ => Except.ok (q.src, q.dst, c.take i)
          | _ => Except.error "AttributeError") =
        Except.ok (q.src, q.dst, c.take i) := by
      rcases hkind with ⟨t, hq⟩ | ⟨cid, hq⟩ <;> simp [hq]
    simp only [hcol, Sniff.splitNs, hdot, ok_bind]
    simp only [show (1 : Nat) = 2004 ↔ False by simp, show
      ((1 : Nat) = 2005 ∨ (1 : Nat) = 2002 ∨ (1 : Nat) = 2001 ∨
        (1 : Nat) = 2006) ↔ False by simp]
    simp only [if_false, ite_false, if_true, ite_true, eq_self_iff_true]
    rw [hbranch]
    simp only [Option.isSome_some, ite_true, if_true]
    refine ⟨by simp, by simp, ?_⟩
    split
    · exact reqLookup_none_erase _ _ _ (reqLookup_erase_self reqs _)
    · exact reqLookup_erase_self reqs _

/-- C3 (counterexample): a Reply whose `response_to` equals the request
id of a previously observed Delete request produces ZERO latency events
and the pending entry is NOT removed — the listener raises
`AttributeError` reading `cursor_id` off the stored `DeleteMessage`
before reaching the log call or the deletions. -/
theorem c3_reply_pairs_pending_delete_counterexample :
    Sniff.tl_after [(5, delEnv)] replyEnv5 = ([], [(5, delEnv)], true) := by
  decide

/-- C3 witness: the amended theorem at an empty pending map and at a
pending-Query map hit by a matching Reply. -/
theorem c3_reply_correlation_amended_witness :
    Sniff.tl_after [] replyEnv42 = ([], [], true) ∧
    ((Sniff.tl_after [(42, qryEnv)] replyEnv42).1.length = 1 ∧
      (Sniff.tl_after [(42, qryEnv)] replyEnv42).2.2 = false ∧
      Sniff.reqLookup (Sniff.tl_after [(42, qryEnv)] replyEnv42).2.1 42 =
        none) := by
  constructor
  · exact (c3_reply_correlation_amended [] replyEnv42 rfl).1 (by decide)
  · exact (c3_reply_correlation_amended [(42, qryEnv)] replyEnv42 rfl).2
      qryEnv [97, 46, 98] 1 (by decide) (Or.inl ⟨0, rfl⟩) (by decide)

/-! ## C1 / C5 / C9 / C10 — the inline-proxy session (`MongoProxy.proxy`,
`_invoke_callback`, `add_listener`, `log_stats`, the `handle_*` methods)

Listeners are modelled as functions from the callback name and argument
to an `Except` (an exception models a raising listener); the session is
parameterised over the registered listener list.  The client side is a
list of byte strings, one per loop iteration (the 16-byte `recv` plus
the body `recv` — frames are delivered whole); the upstream side is a
single byte stream because `handle_reply` tops up with a `recv` loop.
The trace records each `_invoke_callback` dispatch (with the
per-listener outcomes), every `sendall` with its exact payload, and the
summary event of `log_stats` (ratios are carried as the read/write
numerators over the total rather than as formatted floats; the `time`
key is kept out of the op-count stats and its `del` is therefore
implicit).  `log_stats` raises `KeyError` when a counted operation code
is outside `OP_NAMES`, and `ZeroDivisionError` when no message was
counted — in either case `proxy` never reaches `on_close`. -/

namespace Proxy

inductive PxMsg where
  | query (m : QueryMessage)
  | reply (m : ReplyMessage)
  | insert (m : InsertMessage)
  | more (m : MoreMessage)
  | update (m : UpdateMessage)
  | delete (m : DeleteMessage)
deriving DecidableEq, Repr

inductive CbArg where
  | addr (a : Nat)
  | msg (m : PxMsg)
deriving DecidableEq, Repr

abbrev Listener := String → CbArg → Except String Unit

def invoke_callback (listeners : List Listener) (fname : String)
    (arg : CbArg) : List (Except String Unit) :=
  match listeners with
  | [] => []
  | l :: rest => l fname arg :: invoke_callback rest fname arg

inductive Ev where
  | dispatch (fname : String) (results : List (Except String Unit))
  | sendUpstream (b : Bytes)
  | sendClient (b : Bytes)
  | summary (perOp : List (Int × Nat)) (readTotal writeTotal total : Nat)

abbrev Stats := List (Int × Nat)

def statGet (st : Stats) (op : Int) : Option Nat :=
  match st.find? (fun p => p.1 = op) with
  | some p => some p.2
  | none => none

def bump (st : Stats) (op : Int) : Stats :=
  match statGet st op with
  | some n => st.map (fun p => if p.1 = op then (p.1, n + 1) else p)
  | none => st ++ [(op, 1)]

def statGetD (st : Stats) (op : Int) (d : Nat) : Nat := (statGet st op).getD d

def sortKeys (st : Stats) : Stats := st.insertionSort (fun a b => a.1 ≤ b.1)

def log_stats (st : Stats) : Except String Ev :=
  if ¬ st.all (fun p => p.1 ∈ opNames) then .error "KeyError"
  else
    let total := (st.map Prod.snd).sum
    let read_total := statGetD st OP_QUERY 0 + statGetD st OP_GETMORE 0 +
      statGetD st OP_REPLY 0
    let write_total := statGetD st OP_DELETE 0 + statGetD st OP_INSERT 0 +
      statGetD st OP_UPDATE 0 + statGetD st OP_KILL_CURSORS 0
    if total = 0 then .error "ZeroDivisionError"
    else .ok (.summary (sortKeys st) read_total write_total total)

inductive RRes where
  | ok (evs : List Ev) (up : Bytes) (st : Stats)
  | exn (evs : List Ev) (st : Stats)
  | hang (evs : List Ev) (st : Stats)

def handle_reply (ls : List Listener) (up : Bytes) (st : Stats) : RRes :=
  match extract_header (up.take 16) with
  | .error _ => .exn [] st
  | .ok header =>
    let st1 := bump st header.operation
    if header.length < 16 then .exn [] st1
    else if (up.length : Int) < header.length then .hang [] st1
    else
      let resp := up.take header.length.toNat
      let up' := up.drop header.length.toNat
      match parse_reply header resp with
      | .error _ => .exn [] st1
      | .ok msg =>
        .ok [.dispatch "before_reply"
               (invoke_callback ls "before_reply" (.msg (.reply msg))),
             .sendClient resp,
             .dispatch "after_reply"
               (invoke_callback ls "after_reply" (.msg (.reply msg)))]
          up' st1

def handle_delete (ls : List Listener) (h : MessageHeader) (buf : Bytes) :
    List Ev × Bool :=
  match parse_delete h buf with
  | .error _ => ([], true)
  | .ok m =>
    ([.dispatch "before_delete"
        (invoke_callback ls "before_delete" (.msg (.delete m))),
      .sendUpstream buf,
      .dispatch "after_delete"
        (invoke_callback ls "after_delete" (.msg (.delete m)))], false)

def handle_insert (ls : List Listener) (h : MessageHeader) (buf : Bytes) :
    List Ev × Bool :=
  match parse_insert h buf with
  | .error _ => ([], true)
  | .ok m =>
    ([.dispatch "before_insert"
        (invoke_callback ls "before_insert" (.msg (.insert m))),
      .sendUpstream buf,
      .dispatch "after_insert"
        (invoke_callback ls "after_insert" (.msg (.insert m)))], false)

def handle_update (ls : List Listener) (h : MessageHeader) (buf : Bytes) :
    List Ev × Bool :=
  match parse_update h buf with
  | .error _ => ([], true)
  | .ok m =>
    ([.dispatch "before_update"
        (invoke_callback ls "before_update" (.msg (.update m))),
      .sendUpstream buf,
      .dispatch "after_update"
        (invoke_callback ls "after_update" (.msg (.update m)))], false)

def handle_query (ls : List Listener) (h : MessageHeader) (buf : Bytes)
    (up : Bytes) (st : Stats) : RRes :=
  match parse_query h buf with
  | .error _ => .exn [] st
  | .ok m =>
    let arg := CbArg.msg (.query m)
    let evs1 := [.dispatch "before_query" (invoke_callback ls "before_query" arg),
                 .dispatch "before_query_send"
                   (invoke_callback ls "before_query_send" arg),
                 Ev.sendUpstream buf,
                 .dispatch "after_query_send"
                   (invoke_callback ls "after_query_send" arg),
                 .dispatch "before_query_reply"
                   (invoke_callback ls "before_query_reply" arg)]
    match handle_reply ls up st with
    | .exn evs st2 => .exn (evs1 ++ evs) st2
    | .hang evs st2 => .hang (evs1 ++ evs) st2
    | .ok evs up' st2 =>
      .ok (evs1 ++ evs ++
        [.dispatch "after_query_reply"
           (invoke_callback ls "after_query_reply" arg),
         .dispatch "after_query" (invoke_callback ls "after_query" arg)])
        up' st2

def handle_more (ls : List Listener) (h : MessageHeader) (buf : Bytes)
    (up : Bytes) (st : Stats) : RRes :=
  match parse_more h buf with
  | .error _ => .exn [] st
  | .ok m =>
    let arg := CbArg.msg (.more m)
    let evs1 := [.dispatch "before_more" (invoke_callback ls "before_more" arg),
                 .dispatch "before_more_send"
                   (invoke_callback ls "before_more_send" arg),
                 Ev.sendUpstream buf,
                 .dispatch "after_more_send"
                   (invoke_callback ls "after_more_send" arg),
                 .dispatch "before_more_reply"
                   (invoke_callback ls "before_more_reply" arg)]
    match handle_reply ls up st with
    | .exn evs st2 => .exn (evs1 ++ evs) st2
    | .hang evs st2 => .hang (evs1 ++ evs) st2
    | .ok evs up' st2 =>
      .ok (evs1 ++ evs ++
        [.dispatch "after_more_reply"
           (invoke_callback ls "after_more_reply" arg),
         .dispatch "after_more" (invoke_callback ls "after_more" arg)])
        up' st2

/-- The `elif` dispatch of the session loop body (lines 520–532), one
complete frame: Delete/Insert/Update forward with no reply pump and the
loop continues (`.ok` with the upstream stream untouched); Query/GetMore
run the reply pump; any other operation is forwarded raw with no decode
and no events. -/
def handle_op (ls : List Listener) (h : MessageHeader) (m : Bytes)
    (up : Bytes) (st : Stats) : RRes :=
  if h.operation = OP_DELETE then
    match handle_delete ls h m with
    | (evs, true) => .exn evs st
    | (evs, false) => .ok evs up st
  else if h.operation = OP_QUERY then handle_query ls h m up st
  else if h.operation = OP_INSERT then
    match handle_insert ls h m with
    | (evs, true) => .exn evs st
    | (evs, false) => .ok evs up st
  else if h.operation = OP_UPDATE then
    match handle_update ls h m with
    | (evs, true) => .exn evs st
    | (evs, false) => .ok evs up st
  else if h.operation = OP_GETMORE then handle_more ls h m up st
  else .ok [Ev.sendUpstream m] up st

/-- The `while True` session loop (lines 508–536).  Each list element is
the byte string delivered for one iteration (the 16-byte `recv` plus the
body `recv`); the end of the list, or an empty element, is client EOF.
An exception (bad header, negative body `recv`, handler failure) breaks
the loop; only an upstream hang prevents reaching the post-loop code. -/
def sessLoop (ls : List Listener) :
    List Bytes → Bytes → Stats → List Ev × Stats × Bool
  | [], _, st => ([], st, false)
  | m :: rest, up, st =>
    if m.length = 0 then ([], st, false)
    else match extract_header (m.take 16) with
    | .error _ => ([], st, false)
    | .ok h =>
      if h.length < 16 then ([], st, false)
      else
        match handle_op ls h m up (bump st h.operation) with
        | .exn evs st2 => (evs, st2, false)
        | .hang evs st2 => (evs, st2, true)
        | .ok evs up2 st2 =>
          let r := sessLoop ls rest up2 st2
          (evs ++ r.1, r.2.1, r.2.2)

structure SessIn where
  connectOk : Bool
  client : List Bytes
  upstream : Bytes

structure SessOut where
  trace : List Ev
  hang : Bool

def pxSession (ls : List Listener) (inp : SessIn) (addr : Nat) : SessOut :=
  let openEv := Ev.dispatch "on_open" (invoke_callback ls "on_open" (.addr addr))
  if inp.connectOk = false then ⟨[openEv], false⟩
  else
    let r := sessLoop ls inp.client inp.upstream []
    if r.2.2 = true then ⟨openEv :: r.1, true⟩
    else match log_stats r.2.1 with
    | .error _ => ⟨openEv :: r.1, false⟩
    | .ok sEv =>
      ⟨openEv :: r.1 ++
        [sEv, .dispatch "on_close" (invoke_callback ls "on_close" (.addr addr))],
       false⟩

def sentUp (tr : List Ev) : List Bytes :=
  tr.filterMap (fun e => match e with | .sendUpstream b => some b | _ => none)

def sentClient (tr : List Ev) : List Bytes :=
  tr.filterMap (fun e => match e with | .sendClient b => some b | _ => none)

end Proxy

def rresCtl : Proxy.RRes → Nat × Bytes × Proxy.Stats
  | .ok _ u s => (0, u, s)
  | .exn _ s => (1, [], s)
  | .hang _ s => (2, [], s)

def rresEvs : Proxy.RRes → List Proxy.Ev
  | .ok e _ _ => e
  | .exn e _ => e
  | .hang e _ => e

theorem handle_reply_shape (ls ls' : List Proxy.Listener) (up : Bytes)
    (st : Proxy.Stats) :
    rresCtl (Proxy.handle_reply ls up st) =
      rresCtl (Proxy.handle_reply ls' up st) ∧
    Proxy.sentUp (rresEvs (Proxy.handle_reply ls up st)) = [] ∧
    Proxy.sentClient (rresEvs (Proxy.handle_reply ls up st)) =
      Proxy.sentClient (rresEvs (Proxy.handle_reply ls' up st)) ∧
    (match Proxy.handle_reply ls up st with
     | .ok evs up2 _ => ∃ n, Proxy.sentClient evs = [up.take n] ∧
         up2 = up.drop n
     | .exn evs _ => Proxy.sentClient evs = []
     | .hang evs _ => Proxy.sentClient evs = []) := by
  unfold Proxy.handle_reply
  cases hE : Proxy.extract_header (up.take 16) with
  | error e =>
    exact ⟨by trivial, by simp [rresEvs, Proxy.sentUp], by trivial,
      by simp [Proxy.sentClient]⟩
  | ok header =>
    by_cases h16 : header.length < 16
    · simp only [h16, ite_true, if_true]
      exact ⟨by trivial, by simp [rresEvs, Proxy.sentUp], by trivial,
        by simp [Proxy.sentClient]⟩
    · by_cases hlen : (up.length : Int) < header.length
      · simp only [h16, hlen, ite_true, if_true, ite_false, if_false]
        exact ⟨by trivial, by simp [rresEvs, Proxy.sentUp], by trivial,
          by simp [Proxy.sentClient]⟩
      · simp only [h16, hlen, ite_true, if_true, ite_false, if_false]
        cases hP : Proxy.parse_reply header (up.take header.length.toNat) with
        | error e =>
          exact ⟨by trivial, by simp [rresEvs, Proxy.sentUp], by trivial,
            by simp [Proxy.sentClient]⟩
        | ok msg =>
          refine ⟨by trivial, by simp [rresEvs, Proxy.sentUp],
            by simp [rresEvs, Proxy.sentClient], ?_⟩
          exact ⟨header.length.toNat, by simp [Proxy.sentClient], rfl⟩

theorem sentUp_append (a b : List Proxy.Ev) :
    Proxy.sentUp (a ++ b) = Proxy.sentUp a ++ Proxy.sentUp b := by
  simp [Proxy.sentUp, List.filterMap_append]

theorem sentClient_append (a b : List Proxy.Ev) :
    Proxy.sentClient (a ++ b) =
      Proxy.sentClient a ++ Proxy.sentClient b := by
  simp [Proxy.sentClient, List.filterMap_append]

theorem handle_query_shape (ls ls' : List Proxy.Listener)
    (h : Proxy.MessageHeader) (buf up : Bytes) (st : Proxy.Stats) :
    rresCtl (Proxy.handle_query ls h buf up st) =
      rresCtl (Proxy.handle_query ls' h buf up st) ∧
    Proxy.sentUp (rresEvs (Proxy.handle_query ls h buf up st)) =
      Proxy.sentUp (rresEvs (Proxy.handle_query ls' h buf up st)) ∧
    Proxy.sentClient (rresEvs (Proxy.handle_query ls h buf up st)) =
      Proxy.sentClient (rresEvs (Proxy.handle_query ls' h buf up st)) ∧
    (Proxy.sentUp (rresEvs (Proxy.handle_query ls h buf up st)) = [] ∨
      Proxy.sentUp (rresEvs (Proxy.handle_query ls h buf up st)) = [buf]) ∧
    (match Proxy.handle_query ls h buf up st with
     | .ok evs up2 _ => Proxy.sentUp evs = [buf] ∧
         ∃ n, (Proxy.sentClient evs).flatten = up.take n ∧ up2 = up.drop n
     | .exn evs _ => Proxy.sentClient evs = []
     | .hang evs _ => Proxy.sentClient evs = []) := by
  obtain ⟨hctl, hsu, hsceq, hsc⟩ := handle_reply_shape ls ls' up st
  obtain ⟨-, hsu2, -, -⟩ := handle_reply_shape ls' ls up st
  unfold Proxy.handle_query
  cases hP : Proxy.parse_query h buf with
  | error e =>
    exact ⟨by trivial, rfl, rfl, Or.inl (by simp [rresEvs, Proxy.sentUp]),
      by simp [Proxy.sentClient]⟩
  | ok m =>
    cases hR : Proxy.handle_reply ls up st with
    | exn evs st2 =>
      cases hR' : Proxy.handle_reply ls' up st with
      | exn evs' st2' =>
        simp only [hR, hR'] at hctl hsu hsceq hsc hsu2
        simp [rresCtl] at hctl
        simp [rresEvs] at hsu hsu2 hsceq
        refine ⟨by simp [rresCtl, hctl], ?_, ?_, Or.inr ?_, ?_⟩
        · simp only [rresEvs, sentUp_append, hsu, hsu2]
          simp [Proxy.sentUp]
        · simp only [rresEvs, sentClient_append, hsceq]
          simp [Proxy.sentClient]
        · simp only [rresEvs, sentUp_append, hsu]
          simp [Proxy.sentUp]
        · simp only [sentClient_append, hsc]
          simp [Proxy.sentClient]
      | ok e u s => simp only [hR, hR'] at hctl; simp [rresCtl] at hctl
      | hang e s => simp only [hR, hR'] at hctl; simp [rresCtl] at hctl
    | hang evs st2 =>
      cases hR' : Proxy.handle_reply ls' up st with
      | hang evs' st2' =>
        simp only [hR, hR'] at hctl hsu hsceq hsc hsu2
        simp [rresCtl] at hctl
        simp [rresEvs] at hsu hsu2 hsceq
        refine ⟨by simp [rresCtl, hctl], ?_, ?_, Or.inr ?_, ?_⟩
        · simp only [rresEvs, sentUp_append, hsu, hsu2]
          simp [Proxy.sentUp]
        · simp only [rresEvs, sentClient_append, hsceq]
          simp [Proxy.sentClient]
        · simp only [rresEvs, sentUp_append, hsu]
          simp [Proxy.sentUp]
        · simp only [sentClient_append, hsc]
          simp [Proxy.sentClient]
      | ok e u s => simp only [hR, hR'] at hctl; simp [rresCtl] at hctl
      | exn e s => simp only [hR, hR'] at hctl; simp [rresCtl] at hctl
    | ok evs up2 st2 =>
      cases hR' : Proxy.handle_reply ls' up st with
      | ok evs' up2' st2' =>
        simp only [hR, hR'] at hctl hsu hsceq hsc hsu2
        simp [rresCtl] at hctl
        simp [rresEvs] at hsu hsu2 hsceq
        obtain ⟨n, hn, hu2⟩ := hsc
        refine ⟨by simp [rresCtl, hctl], ?_, ?_, Or.inr ?_, ?_⟩
        · simp only [rresEvs, sentUp_append, hsu, hsu2]
          simp [Proxy.sentUp]
        · simp only [rresEvs, sentClient_append, hsceq]
          simp [Proxy.sentClient]
        · simp only [rresEvs, sentUp_append, hsu]
          simp [Proxy.sentUp]
        · refine ⟨?_, n, ?_, hu2⟩
          · simp only [sentUp_append, hsu]
            simp [Proxy.sentUp]
          · simp only [sentClient_append, hn]
            simp [Proxy.sentClient]
      | exn e s => simp only [hR, hR'] at hctl; simp [rresCtl] at hctl
      | hang e s => simp only [hR, hR'] at hctl; simp [rresCtl] at hctl

theorem handle_more_shape (ls ls' : List Proxy.Listener)
    (h : Proxy.MessageHeader) (buf up : Bytes) (st : Proxy.Stats) :
    rresCtl (Proxy.handle_more ls h buf up st) =
      rresCtl (Proxy.handle_more ls' h buf up st) ∧
    Proxy.sentUp (rresEvs (Proxy.handle_more ls h buf up st)) =
      Proxy.sentUp (rresEvs (Proxy.handle_more ls' h buf up st)) ∧
    Proxy.sentClient (rresEvs (Proxy.handle_more ls h buf up st)) =
      Proxy.sentClient (rresEvs (Proxy.handle_more ls' h buf up st)) ∧
    (Proxy.sentUp (rresEvs (Proxy.handle_more ls h buf up st)) = [] ∨
      Proxy.sentUp (rresEvs (Proxy.handle_more ls h buf up st)) = [buf]) ∧
    (match Proxy.handle_more ls h buf up st with
     | .ok evs up2 _ => Proxy.sentUp evs = [buf] ∧
         ∃ n, (Proxy.sentClient evs).flatten = up.take n ∧ up2 = up.drop n
     | .exn evs _ => Proxy.sentClient evs = []
     | .hang evs _ => Proxy.sentClient evs = []) := by
  obtain ⟨hctl, hsu, hsceq, hsc⟩ := handle_reply_shape ls ls' up st
  obtain ⟨-, hsu2, -, -⟩ := handle_reply_shape ls' ls up st
  unfold Proxy.handle_more
  cases hP : Proxy.parse_more h buf with
  | error e =>
    exact ⟨by trivial, rfl, rfl, Or.inl (by simp [rresEvs, Proxy.sentUp]),
      by simp [Proxy.sentClient]⟩
  | ok m =>
    cases hR : Proxy.handle_reply ls up st with
    | exn evs st2 =>
      cases hR' : Proxy.handle_reply ls' up st with
      | exn evs' st2' =>
        simp only [hR, hR'] at hctl hsu hsceq hsc hsu2
        simp [rresCtl] at hctl
        simp [rresEvs] at hsu hsu2 hsceq
        refine ⟨by simp [rresCtl, hctl], ?_, ?_, Or.inr ?_, ?_⟩
        · simp only [rresEvs, sentUp_append, hsu, hsu2]
          simp [Proxy.sentUp]
        · simp only [rresEvs, sentClient_append, hsceq]
          simp [Proxy.sentClient]
        · simp only [rresEvs, sentUp_append, hsu]
          simp [Proxy.sentUp]
        · simp only [sentClient_append, hsc]
          simp [Proxy.sentClient]
      | ok e u s => simp only [hR, hR'] at hctl; simp [rresCtl] at hctl
      | hang e s => simp only [hR, hR'] at hctl; simp [rresCtl] at hctl
    | hang evs st2 =>
      cases hR' : Proxy.handle_reply ls' up st with
      | hang evs' st2' =>
        simp only [hR, hR'] at hctl hsu hsceq hsc hsu2
        simp [rresCtl] at hctl
        simp [rresEvs] at hsu hsu2 hsceq
        refine ⟨by simp [rresCtl, hctl], ?_, ?_, Or.inr ?_, ?_⟩
        · simp only [rresEvs, sentUp_append, hsu, hsu2]
          simp [Proxy.sentUp]
        · simp only [rresEvs, sentClient_append, hsceq]
          simp [Proxy.sentClient]
        · simp only [rresEvs, sentUp_append, hsu]
          simp [Proxy.sentUp]
        · simp only [sentClient_append, hsc]
          simp [Proxy.sentClient]
      | ok e u s => simp only [hR, hR'] at hctl; simp [rresCtl] at hctl
      | exn e s => simp only [hR, hR'] at hctl; simp [rresCtl] at hctl
    | ok evs up2 st2 =>
      cases hR' : Proxy.handle_reply ls' up st with
      | ok evs' up2' st2' =>
        simp only [hR, hR'] at hctl hsu hsceq hsc hsu2
        simp [rresCtl] at hctl
        simp [rresEvs] at hsu hsu2 hsceq
        obtain ⟨n, hn, hu2⟩ := hsc
        refine ⟨by simp [rresCtl, hctl], ?_, ?_, Or.inr ?_, ?_⟩
        · simp only [rresEvs, sentUp_append, hsu, hsu2]
          simp [Proxy.sentUp]
        · simp only [rresEvs, sentClient_append, hsceq]
          simp [Proxy.sentClient]
        · simp only [rresEvs, sentUp_append, hsu]
          simp [Proxy.sentUp]
        · refine ⟨?_, n, ?_, hu2⟩
          · simp only [sentUp_append, hsu]
            simp [Proxy.sentUp]
          · simp only [sentClient_append, hn]
            simp [Proxy.sentClient]
      | exn e s => simp only [hR, hR'] at hctl; simp [rresCtl] at hctl
      | hang e s => simp only [hR, hR'] at hctl; simp [rresCtl] at hctl

theorem handle_delete_shape (ls ls' : List Proxy.Listener)
    (h : Proxy.MessageHeader) (buf : Bytes) :
    (Proxy.handle_delete ls h buf).2 = (Proxy.handle_delete ls' h buf).2 ∧
    Proxy.sentUp (Proxy.handle_delete ls h buf).1 =
      Proxy.sentUp (Proxy.handle_delete ls' h buf).1 ∧
    Proxy.sentClient (Proxy.handle_delete ls h buf).1 = [] ∧
    (Proxy.sentUp (Proxy.handle_delete ls h buf).1 = [] ∨
      Proxy.sentUp (Proxy.handle_delete ls h buf).1 = [buf]) ∧
    ((Proxy.handle_delete ls h buf).2 = false →
      Proxy.sentUp (Proxy.handle_delete ls h buf).1 = [buf]) := by
  unfold Proxy.handle_delete
  cases hP : Proxy.parse_delete h buf with
  | error e =>
    exact ⟨rfl, rfl, by simp [Proxy.sentClient],
      Or.inl (by simp [Proxy.sentUp]), by simp⟩
  | ok m =>
    exact ⟨rfl, by simp [Proxy.sentUp], by simp [Proxy.sentClient],
      Or.inr (by simp [Proxy.sentUp]), fun _ => by simp [Proxy.sentUp]⟩

theorem handle_insert_shape (ls ls' : List Proxy.Listener)
    (h : Proxy.MessageHeader) (buf : Bytes) :
    (Proxy.handle_insert ls h buf).2 = (Proxy.handle_insert ls' h buf).2 ∧
    Proxy.sentUp (Proxy.handle_insert ls h buf).1 =
      Proxy.sentUp (Proxy.handle_insert ls' h buf).1 ∧
    Proxy.sentClient (Proxy.handle_insert ls h buf).1 = [] ∧
    (Proxy.sentUp (Proxy.handle_insert ls h buf).1 = [] ∨
      Proxy.sentUp (Proxy.handle_insert ls h buf).1 = [buf]) ∧
    ((Proxy.handle_insert ls h buf).2 = false →
      Proxy.sentUp (Proxy.handle_insert ls h buf).1 = [buf]) := by
  unfold Proxy.handle_insert
  cases hP : Proxy.parse_insert h buf with
  | error e =>
    exact ⟨rfl, rfl, by simp [Proxy.sentClient],
      Or.inl (by simp [Proxy.sentUp]), by simp⟩
  | ok m =>
    exact ⟨rfl, by simp [Proxy.sentUp], by simp [Proxy.sentClient],
      Or.inr (by simp [Proxy.sentUp]), fun _ => by simp [Proxy.sentUp]⟩

theorem handle_update_shape (ls ls' : List Proxy.Listener)
    (h : Proxy.MessageHeader) (buf : Bytes) :
    (Proxy.handle_update ls h buf).2 = (Proxy.handle_update ls' h buf).2 ∧
    Proxy.sentUp (Proxy.handle_update ls h buf).1 =
      Proxy.sentUp (Proxy.handle_update ls' h buf).1 ∧
    Proxy.sentClient (Proxy.handle_update ls h buf).1 = [] ∧
    (Proxy.sentUp (Proxy.handle_update ls h buf).1 = [] ∨
      Proxy.sentUp (Proxy.handle_update ls h buf).1 = [buf]) ∧
    ((Proxy.handle_update ls h buf).2 = false →
      Proxy.sentUp (Proxy.handle_update ls h buf).1 = [buf]) := by
  unfold Proxy.handle_update
  cases hP : Proxy.parse_update h buf with
  | error e =>
    exact ⟨rfl, rfl, by simp [Proxy.sentClient],
      Or.inl (by simp [Proxy.sentUp]), by simp⟩
  | ok m =>
    exact ⟨rfl, by simp [Proxy.sentUp], by simp [Proxy.sentClient],
      Or.inr (by simp [Proxy.sentUp]), fun _ => by simp [Proxy.sentUp]⟩

theorem handle_op_shape (ls ls' : List Proxy.Listener)
    (h : Proxy.MessageHeader) (m up : Bytes) (st : Proxy.Stats) :
    rresCtl (Proxy.handle_op ls h m up st) =
      rresCtl (Proxy.handle_op ls' h m up st) ∧
    Proxy.sentUp (rresEvs (Proxy.handle_op ls h m up st)) =
      Proxy.sentUp (rresEvs (Proxy.handle_op ls' h m up st)) ∧
    Proxy.sentClient (rresEvs (Proxy.handle_op ls h m up st)) =
      Proxy.sentClient (rresEvs (Proxy.handle_op ls' h m up st)) ∧
    (Proxy.sentUp (rresEvs (Proxy.handle_op ls h m up st)) = [] ∨
      Proxy.sentUp (rresEvs (Proxy.handle_op ls h m up st)) = [m]) ∧
    (match Proxy.handle_op ls h m up st with
     | .ok evs up2 _ => Proxy.sentUp evs = [m] ∧
         ∃ n, (Proxy.sentClient evs).flatten = up.take n ∧ up2 = up.drop n
     | .exn evs _ => Proxy.sentClient evs = []
     | .hang evs _ => Proxy.sentClient evs = []) := by
  unfold Proxy.handle_op
  by_cases hDel : h.operation = OP_DELETE
  · simp only [hDel, ite_true, if_true]
    obtain ⟨hf, hsu, hsc, hmem, hok⟩ := handle_delete_shape ls ls' h m
    obtain ⟨-, -, hsc2, -, -⟩ := handle_delete_shape ls' ls h m
    rcases hD : Proxy.handle_delete ls h m with ⟨evs, flag⟩
    rcases hD' : Proxy.handle_delete ls' h m with ⟨evs', flag'⟩
    simp only [hD, hD'] at hf hsu hsc hmem hok hsc2
    subst hf
    cases flag with
    | true =>
      exact ⟨by trivial, by simpa [rresEvs] using hsu,
        by simp [rresEvs, hsc, hsc2], by simpa [rresEvs] using hmem,
        by simpa using hsc⟩
    | false =>
      refine ⟨by trivial, by simpa [rresEvs] using hsu,
        by simp [rresEvs, hsc, hsc2], by simpa [rresEvs] using hmem,
        ⟨hok rfl, 0, by simp [hsc], by simp⟩⟩
  · simp only [hDel, ite_false, if_false]
    by_cases hQ : h.operation = OP_QUERY
    · simp only [hQ, ite_true, if_true]
      exact handle_query_shape ls ls' h m up st
    · simp only [hQ, ite_false, if_false]
      by_cases hIns : h.operation = OP_INSERT
      · simp only [hIns, ite_true, if_true]
        obtain ⟨hf, hsu, hsc, hmem, hok⟩ := handle_insert_shape ls ls' h m
        obtain ⟨-, -, hsc2, -, -⟩ := handle_insert_shape ls' ls h m
        rcases hD : Proxy.handle_insert ls h m with ⟨evs, flag⟩
        rcases hD' : Proxy.handle_insert ls' h m with ⟨evs', flag'⟩
        simp only [hD, hD'] at hf hsu hsc hmem hok hsc2
        subst hf
        cases flag with
        | true =>
          exact ⟨by trivial, by simpa [rresEvs] using hsu,
            by simp [rresEvs, hsc, hsc2], by simpa [rresEvs] using hmem,
            by simpa using hsc⟩
        | false =>
          refine ⟨by trivial, by simpa [rresEvs] using hsu,
            by simp [rresEvs, hsc, hsc2], by simpa [rresEvs] using hmem,
            ⟨hok rfl, 0, by simp [hsc], by simp⟩⟩
      · simp only [hIns, ite_false, if_false]
        by_cases hUpd : h.operation = OP_UPDATE
        · simp only [hUpd, ite_true, if_true]
          obtain ⟨hf, hsu, hsc, hmem, hok⟩ := handle_update_shape ls ls' h m
          obtain ⟨-, -, hsc2, -, -⟩ := handle_update_shape ls' ls h m
          rcases hD : Proxy.handle_update ls h m with ⟨evs, flag⟩
          rcases hD' : Proxy.handle_update ls' h m with ⟨evs', flag'⟩
          simp only [hD, hD'] at hf hsu hsc hmem hok hsc2
          subst hf
          cases flag with
          | true =>
            exact ⟨by trivial, by simpa [rresEvs] using hsu,
              by simp [rresEvs, hsc, hsc2], by simpa [rresEvs] using hmem,
              by simpa using hsc⟩
          | false =>
            refine ⟨by trivial, by simpa [rresEvs] using hsu,
              by simp [rresEvs, hsc, hsc2], by simpa [rresEvs] using hmem,
              ⟨hok rfl, 0, by simp [hsc], by simp⟩⟩
        · simp only [hUpd, ite_false, if_false]
          by_cases hMore : h.operation = OP_GETMORE
          · simp only [hMore, ite_true, if_true]
            exact handle_more_shape ls ls' h m up st
          · simp only [hMore, ite_false, if_false]
            refine ⟨by trivial, by trivial, by trivial,
              Or.inr (by simp [rresEvs, Proxy.sentUp]),
              ⟨by simp [Proxy.sentUp], 0, by simp [Proxy.sentClient],
                by simp⟩⟩

theorem take_append_prefix {x l : Bytes} (n : Nat) (hx : x <+: l.drop n) :
    l.take n ++ x <+: l := by
  obtain ⟨w, hw⟩ := hx
  exact ⟨w, by rw [List.append_assoc, hw, List.take_append_drop]⟩

theorem sessLoop_shape :
    ∀ (client : List Bytes) (up : Bytes) (st : Proxy.Stats)
      (ls ls' : List Proxy.Listener),
    Proxy.sentUp (Proxy.sessLoop ls client up st).1 =
      Proxy.sentUp (Proxy.sessLoop ls' client up st).1 ∧
    Proxy.sentClient (Proxy.sessLoop ls client up st).1 =
      Proxy.sentClient (Proxy.sessLoop ls' client up st).1 ∧
    (Proxy.sessLoop ls client up st).2 =
      (Proxy.sessLoop ls' client up st).2 ∧
    Proxy.sentUp (Proxy.sessLoop ls client up st).1 <+: client ∧
    (Proxy.sentClient (Proxy.sessLoop ls client up st).1).flatten <+: up
  | [], up, st, ls, ls' => by
    refine ⟨by trivial, by trivial, by trivial, ?_, ?_⟩ <;>
      simp [Proxy.sessLoop, Proxy.sentUp, Proxy.sentClient]
  | m :: rest, up, st, ls, ls' => by
    unfold Proxy.sessLoop
    by_cases h0 : m.length = 0
    · simp only [h0, ite_true, if_true]
      refine ⟨by trivial, by trivial, by trivial, ?_, ?_⟩ <;> simp [Proxy.sentUp, Proxy.sentClient]
    · simp only [h0, ite_false, if_false]
      cases hE : Proxy.extract_header (m.take 16) with
      | error e =>
        refine ⟨by trivial, by trivial, by trivial, ?_, ?_⟩ <;>
          simp [Proxy.sentUp, Proxy.sentClient]
      | ok h =>
        by_cases h16 : h.length < 16
        · simp only [h16, ite_true, if_true]
          refine ⟨by trivial, by trivial, by trivial, ?_, ?_⟩ <;>
            simp [Proxy.sentUp, Proxy.sentClient]
        · simp only [h16, ite_false, if_false]
          obtain ⟨hctl, hsu, hsc, hmem, hok⟩ :=
            handle_op_shape ls ls' h m up (Proxy.bump st h.operation)
          cases hO : Proxy.handle_op ls h m up (Proxy.bump st h.operation) with
          | exn evs st2 =>
            cases hO' :
                Proxy.handle_op ls' h m up (Proxy.bump st h.operation) with
            | exn evs' st2' =>
              simp only [hO, hO'] at hctl hsu hsc hmem hok
              simp only [rresCtl, Prod.mk.injEq] at hctl
              simp only [rresEvs] at hsu hsc hmem
              refine ⟨hsu, hsc, by simp [hctl.2.2], ?_, ?_⟩
              · rcases hmem with hm | hm
                · simp [hm]
                · rw [hm]; exact ⟨rest, rfl⟩
              · simp [hok]
            | ok e u s =>
              simp only [hO, hO'] at hctl; simp [rresCtl] at hctl
            | hang e s =>
              simp only [hO, hO'] at hctl; simp [rresCtl] at hctl
          | hang evs st2 =>
            cases hO' :
                Proxy.handle_op ls' h m up (Proxy.bump st h.operation) with
            | hang evs' st2' =>
              simp only [hO, hO'] at hctl hsu hsc hmem hok
              simp only [rresCtl, Prod.mk.injEq] at hctl
              simp only [rresEvs] at hsu hsc hmem
              refine ⟨hsu, hsc, by simp [hctl.2.2], ?_, ?_⟩
              · rcases hmem with hm | hm
                · simp [hm]
                · rw [hm]; exact ⟨rest, rfl⟩
              · simp [hok]
            | ok e u s =>
              simp only [hO, hO'] at hctl; simp [rresCtl] at hctl
            | exn e s =>
              simp only [hO, hO'] at hctl; simp [rresCtl] at hctl
          | ok evs up2 st2 =>
            cases hO' :
                Proxy.handle_op ls' h m up (Proxy.bump st h.operation) with
            | ok evs' up2' st2' =>
              simp only [hO, hO'] at hctl hsu hsc hmem hok
              simp only [rresCtl, Prod.mk.injEq] at hctl
              simp only [rresEvs] at hsu hsc hmem
              obtain ⟨hU, n, hCn, hup2⟩ := hok
              obtain ⟨hu2, hst2⟩ := hctl.2
              subst hu2
              subst hst2
              obtain ⟨ih1, ih2, ih3, ih4, ih5⟩ :=
                sessLoop_shape rest up2 st2 ls ls'
              refine ⟨?_, ?_, ?_, ?_, ?_⟩
              · simp only [sentUp_append, hsu, ih1]
              · simp only [sentClient_append, hsc, ih2]
              · simp [ih3]
              · simp only [sentUp_append, hU]
                obtain ⟨w, hw⟩ := ih4
                refine ⟨w, ?_⟩
                rw [List.append_assoc, hw]
                rfl
              · simp only [sentClient_append, List.flatten_append, hCn]
                subst hup2
                exact take_append_prefix n ih5
            | exn e s =>
              simp only [hO, hO'] at hctl; simp [rresCtl] at hctl
            | hang e s =>
              simp only [hO, hO'] at hctl; simp [rresCtl] at hctl

def replyFrame : Bytes :=
  [41,0,0,0, 1,0,0,0, 8,0,0,0, 1,0,0,0] ++ [0,0,0,0] ++
  [0,0,0,0,0,0,0,0] ++ [0,0,0,0] ++ [1,0,0,0] ++ [5,0,0,0,0]

theorem sentUp_dispatch_cons (f : String) (r : List (Except String Unit))
    (evs : List Proxy.Ev) :
    Proxy.sentUp (.dispatch f r :: evs) = Proxy.sentUp evs := rfl

theorem sentClient_dispatch_cons (f : String)
    (r : List (Except String Unit)) (evs : List Proxy.Ev) :
    Proxy.sentClient (.dispatch f r :: evs) = Proxy.sentClient evs := rfl

theorem sentUp_tail_events (evs : List Proxy.Ev) (a : Proxy.Stats)
    (b c d : Nat) (f : String) (r : List (Except String Unit)) :
    Proxy.sentUp (evs ++ [.summary a b c d, .dispatch f r]) =
      Proxy.sentUp evs := by
  rw [sentUp_append]
  simp [Proxy.sentUp]

theorem sentClient_tail_events (evs : List Proxy.Ev) (a : Proxy.Stats)
    (b c d : Nat) (f : String) (r : List (Except String Unit)) :
    Proxy.sentClient (evs ++ [.summary a b c d, .dispatch f r]) =
      Proxy.sentClient evs := by
  rw [sentClient_append]
  simp [Proxy.sentClient]

theorem pxSession_noconn (ls : List Proxy.Listener) (inp : Proxy.SessIn)
    (addr : Nat) (hc : inp.connectOk = false) :
    Proxy.pxSession ls inp addr =
      ⟨[Proxy.Ev.dispatch "on_open"
          (Proxy.invoke_callback ls "on_open" (.addr addr))], false⟩ := by
  unfold Proxy.pxSession
  simp only [hc]
  rfl

theorem pxSession_hang (ls : List Proxy.Listener) (inp : Proxy.SessIn)
    (addr : Nat) (hc : inp.connectOk = true)
    (hf : (Proxy.sessLoop ls inp.client inp.upstream []).2.2 = true) :
    Proxy.pxSession ls inp addr =
      ⟨Proxy.Ev.dispatch "on_open"
          (Proxy.invoke_callback ls "on_open" (.addr addr)) ::
        (Proxy.sessLoop ls inp.client inp.upstream []).1, true⟩ := by
  unfold Proxy.pxSession
  simp only [hc, hf]
  rfl

theorem pxSession_logerr (ls : List Proxy.Listener) (inp : Proxy.SessIn)
    (addr : Nat) (e : String) (hc : inp.connectOk = true)
    (hf : (Proxy.sessLoop ls inp.client inp.upstream []).2.2 = false)
    (hlog : Proxy.log_stats
        (Proxy.sessLoop ls inp.client inp.upstream []).2.1 = .error e) :
    Proxy.pxSession ls inp addr =
      ⟨Proxy.Ev.dispatch "on_open"
          (Proxy.invoke_callback ls "on_open" (.addr addr)) ::
        (Proxy.sessLoop ls inp.client inp.upstream []).1, false⟩ := by
  unfold Proxy.pxSession
  simp only [hc, hf, hlog]
  rfl

theorem pxSession_summary (ls : List Proxy.Listener) (inp : Proxy.SessIn)
    (addr : Nat) (sEv : Proxy.Ev) (hc : inp.connectOk = true)
    (hf : (Proxy.sessLoop ls inp.client inp.upstream []).2.2 = false)
    (hlog : Proxy.log_stats
        (Proxy.sessLoop ls inp.client inp.upstream []).2.1 = .ok sEv) :
    Proxy.pxSession ls inp addr =
      ⟨Proxy.Ev.dispatch "on_open"
          (Proxy.invoke_callback ls "on_open" (.addr addr)) ::
        (Proxy.sessLoop ls inp.client inp.upstream []).1 ++
        [sEv, Proxy.Ev.dispatch "on_close"
          (Proxy.invoke_callback ls "on_close" (.addr addr))], false⟩ := by
  unfold Proxy.pxSession
  simp only [hc, hf, hlog]
  rfl

theorem log_stats_summary_form (st : Proxy.Stats) (sEv : Proxy.Ev)
    (hlog : Proxy.log_stats st = .ok sEv) :
    ∃ a b c d, sEv = Proxy.Ev.summary a b c d := by
  unfold Proxy.log_stats at hlog
  by_cases hA : ¬ (st.all (fun p => decide (p.1 ∈ opNames)) = true)
  · simp [hA] at hlog
  · simp only [hA, ite_false, if_false] at hlog
    by_cases hT : ((st.map Prod.snd).sum = 0)
    · simp [hT] at hlog
    · simp only [hT, ite_false, if_false] at hlog
      exact ⟨_, _, _, _, ((Except.ok.injEq _ _).mp hlog).symm⟩

theorem session_sends (ls ls' : List Proxy.Listener) (inp : Proxy.SessIn)
    (addr addr' : Nat) :
    Proxy.sentUp (Proxy.pxSession ls inp addr).trace =
      Proxy.sentUp (Proxy.pxSession ls' inp addr').trace ∧
    Proxy.sentClient (Proxy.pxSession ls inp addr).trace =
      Proxy.sentClient (Proxy.pxSession ls' inp addr').trace ∧
    Proxy.sentUp (Proxy.pxSession ls inp addr).trace <+: inp.client ∧
    (Proxy.sentClient (Proxy.pxSession ls inp addr).trace).flatten <+:
      inp.upstream := by
  obtain ⟨h1, h2, h3, h4, h5⟩ :=
    sessLoop_shape inp.client inp.upstream [] ls ls'
  have hst : (Proxy.sessLoop ls inp.client inp.upstream []).2.1 =
      (Proxy.sessLoop ls' inp.client inp.upstream []).2.1 := by rw [h3]
  have hfl : (Proxy.sessLoop ls inp.client inp.upstream []).2.2 =
      (Proxy.sessLoop ls' inp.client inp.upstream []).2.2 := by rw [h3]
  cases hc : inp.connectOk with
  | false =>
    rw [pxSession_noconn ls inp addr hc, pxSession_noconn ls' inp addr' hc]
    refine ⟨rfl, rfl, ?_, ?_⟩ <;> simp [Proxy.sentUp, Proxy.sentClient]
  | true =>
    cases hflag : (Proxy.sessLoop ls inp.client inp.upstream []).2.2 with
    | true =>
      rw [pxSession_hang ls inp addr hc hflag,
        pxSession_hang ls' inp addr' hc (hfl ▸ hflag)]
      dsimp only
      rw [sentUp_dispatch_cons, sentUp_dispatch_cons,
        sentClient_dispatch_cons, sentClient_dispatch_cons]
      exact ⟨h1, h2, h4, h5⟩
    | false =>
      cases hlog : Proxy.log_stats
          (Proxy.sessLoop ls inp.client inp.upstream []).2.1 with
      | error e =>
        rw [pxSession_logerr ls inp addr e hc hflag hlog,
          pxSession_logerr ls' inp addr' e hc (hfl ▸ hflag)
            (hst ▸ hlog)]
        dsimp only
        rw [sentUp_dispatch_cons, sentUp_dispatch_cons,
          sentClient_dispatch_cons, sentClient_dispatch_cons]
        exact ⟨h1, h2, h4, h5⟩
      | ok sEv =>
        obtain ⟨a, b, c2, d, hsev⟩ := log_stats_summary_form _ _ hlog
        subst hsev
        rw [pxSession_summary ls inp addr _ hc hflag hlog,
          pxSession_summary ls' inp addr' _ hc (hfl ▸ hflag)
            (hst ▸ hlog)]
        dsimp only
        simp only [sentUp_dispatch_cons, sentClient_dispatch_cons,
          sentUp_tail_events, sentClient_tail_events]
        exact ⟨h1, h2, h4, h5⟩

/-- C1: byte-identical forwarding.  For any two listener registrations
(and any callback behaviour, including raising), the sequences of bytes
written upstream and to the client are identical; the frames written
upstream are a prefix of the frames read from the client, byte for
byte, and the bytes written to the client are a prefix of the bytes
read from upstream.  Listeners receive only the decoded message value;
the forwarded buffer is the very byte string that was read. -/
theorem c1_forward_bytes_identical (ls ls' : List Proxy.Listener) (inp : Proxy.SessIn)
    (addr addr' : Nat) :
    Proxy.sentUp (Proxy.pxSession ls inp addr).trace =
      Proxy.sentUp (Proxy.pxSession ls' inp addr').trace ∧
    Proxy.sentClient (Proxy.pxSession ls inp addr).trace =
      Proxy.sentClient (Proxy.pxSession ls' inp addr').trace ∧
    Proxy.sentUp (Proxy.pxSession ls inp addr).trace <+: inp.client ∧
    (Proxy.sentClient (Proxy.pxSession ls inp addr).trace).flatten <+:
      inp.upstream :=
  session_sends ls ls' inp addr addr'

/-- C5: listener-exception isolation.  When listener `f` raises on an
event, the dispatch still invokes every earlier and later listener with
the same event, recording `f`'s error in place; and the session's
forwarded bytes are exactly what they would have been without the
raising listener. -/
theorem c5_listener_exception_isolated (pre post : List Proxy.Listener) (f : Proxy.Listener)
    (fname : String) (arg : Proxy.CbArg) (e : String)
    (inp : Proxy.SessIn) (addr : Nat)
    (hf : f fname arg = .error e) :
    Proxy.invoke_callback (pre ++ f :: post) fname arg =
      Proxy.invoke_callback pre fname arg ++
        .error e :: Proxy.invoke_callback post fname arg ∧
    Proxy.sentUp (Proxy.pxSession (pre ++ f :: post) inp addr).trace =
      Proxy.sentUp (Proxy.pxSession (pre ++ post) inp addr).trace ∧
    Proxy.sentClient (Proxy.pxSession (pre ++ f :: post) inp addr).trace =
      Proxy.sentClient (Proxy.pxSession (pre ++ post) inp addr).trace := by
  refine ⟨?_, (session_sends _ _ inp addr addr).1,
    (session_sends _ _ inp addr addr).2.1⟩
  induction pre with
  | nil => simp [Proxy.invoke_callback, hf]
  | cons p t ih => simp [Proxy.invoke_callback, ih]

def badL : Proxy.Listener := fun _ _ => .error "boom"

def okL : Proxy.Listener := fun _ _ => .ok ()

/-- C5 witness: a raising listener followed by a healthy one. -/
theorem c5_listener_exception_isolated_witness :
    Proxy.invoke_callback ([] ++ badL :: [okL]) "before_query" (.addr 0) =
      Proxy.invoke_callback [] "before_query" (.addr 0) ++
        .error "boom" :: Proxy.invoke_callback [okL] "before_query"
          (.addr 0) ∧
    Proxy.sentUp
        (Proxy.pxSession ([] ++ badL :: [okL]) ⟨true, [], []⟩ 0).trace =
      Proxy.sentUp (Proxy.pxSession ([] ++ [okL]) ⟨true, [], []⟩ 0).trace ∧
    Proxy.sentClient
        (Proxy.pxSession ([] ++ badL :: [okL]) ⟨true, [], []⟩ 0).trace =
      Proxy.sentClient
        (Proxy.pxSession ([] ++ [okL]) ⟨true, [], []⟩ 0).trace :=
  c5_listener_exception_isolated [] [okL] badL "before_query" (.addr 0) "boom" ⟨true, [], []⟩ 0
    rfl

/-- C9 (amended): a session that connected upstream, whose loop ended
without hanging, that counted at least one message, and whose counted
operation codes are all known to `OP_NAMES`, ends its trace with the
summary event (per-operation totals, read/write totals and the grand
total) followed by the `on_close` dispatch.  A session whose upstream
connection failed emits neither, and a session that counted no messages
dies with `ZeroDivisionError` inside `log_stats` before `on_close`. -/
theorem c9_close_and_summary_amended (ls : List Proxy.Listener) (inp : Proxy.SessIn)
    (addr : Nat)
    (hc : inp.connectOk = true)
    (hhang : (Proxy.sessLoop ls inp.client inp.upstream []).2.2 = false)
    (hops : (Proxy.sessLoop ls inp.client inp.upstream []).2.1.all
        (fun p => decide (p.1 ∈ opNames)) = true)
    (htot : (((Proxy.sessLoop ls inp.client inp.upstream []).2.1.map
        Prod.snd).sum) ≠ 0) :
    (Proxy.pxSession ls inp addr).trace =
      Proxy.Ev.dispatch "on_open"
          (Proxy.invoke_callback ls "on_open" (.addr addr)) ::
        (Proxy.sessLoop ls inp.client inp.upstream []).1 ++
        [Proxy.Ev.summary
          (Proxy.sortKeys (Proxy.sessLoop ls inp.client inp.upstream []).2.1)
          (Proxy.statGetD (Proxy.sessLoop ls inp.client inp.upstream []).2.1
              OP_QUERY 0 +
            Proxy.statGetD (Proxy.sessLoop ls inp.client inp.upstream []).2.1
              OP_GETMORE 0 +
            Proxy.statGetD (Proxy.sessLoop ls inp.client inp.upstream []).2.1
              OP_REPLY 0)
          (Proxy.statGetD (Proxy.sessLoop ls inp.client inp.upstream []).2.1
              OP_DELETE 0 +
            Proxy.statGetD (Proxy.sessLoop ls inp.client inp.upstream []).2.1
              OP_INSERT 0 +
            Proxy.statGetD (Proxy.sessLoop ls inp.client inp.upstream []).2.1
              OP_UPDATE 0 +
            Proxy.statGetD (Proxy.sessLoop ls inp.client inp.upstream []).2.1
              OP_KILL_CURSORS 0)
          (((Proxy.sessLoop ls inp.client inp.upstream []).2.1.map
            Prod.snd).sum),
         Proxy.Ev.dispatch "on_close"
           (Proxy.invoke_callback ls "on_close" (.addr addr))] := by
  have hlog : Proxy.log_stats
      (Proxy.sessLoop ls inp.client inp.upstream []).2.1 =
      .ok (Proxy.Ev.summary
        (Proxy.sortKeys (Proxy.sessLoop ls inp.client inp.upstream []).2.1)
        (Proxy.statGetD (Proxy.sessLoop ls inp.client inp.upstream []).2.1
            OP_QUERY 0 +
          Proxy.statGetD (Proxy.sessLoop ls inp.client inp.upstream []).2.1
            OP_GETMORE 0 +
          Proxy.statGetD (Proxy.sessLoop ls inp.client inp.upstream []).2.1
            OP_REPLY 0)
        (Proxy.statGetD (Proxy.sessLoop ls inp.client inp.upstream []).2.1
            OP_DELETE 0 +
          Proxy.statGetD (Proxy.sessLoop ls inp.client inp.upstream []).2.1
            OP_INSERT 0 +
          Proxy.statGetD (Proxy.sessLoop ls inp.client inp.upstream []).2.1
            OP_UPDATE 0 +
          Proxy.statGetD (Proxy.sessLoop ls inp.client inp.upstream []).2.1
            OP_KILL_CURSORS 0)
        (((Proxy.sessLoop ls inp.client inp.upstream []).2.1.map
          Prod.snd).sum)) := by
    unfold Proxy.log_stats
    simp only [hops, eq_self_iff_true, not_true, ite_false, if_false]
    rw [if_neg htot]
  rw [pxSession_summary ls inp addr _ hc hhang hlog]

/-- C9 (counterexample): an upstream-connect failure returns from
`proxy` after closing the client socket — the trace holds only the
`on_open` dispatch, no summary and no `on_close`; likewise a session
that saw zero messages (client EOF immediately) raises
`ZeroDivisionError` in `log_stats` and never reaches `on_close`. -/
theorem c9_close_skipped_counterexample :
    (Proxy.pxSession [] ⟨false, [updFrame], replyFrame⟩ 7).trace =
      [Proxy.Ev.dispatch "on_open" []] ∧
    (Proxy.pxSession [] ⟨true, [], []⟩ 7).trace =
      [Proxy.Ev.dispatch "on_open" []] :=
  ⟨rfl, rfl⟩

/-- C9 witness: the amended theorem at a one-Update session. -/
theorem c9_close_and_summary_amended_witness :
    (Proxy.pxSession [] ⟨true, [updFrame], replyFrame⟩ 7).trace =
      Proxy.Ev.dispatch "on_open"
          (Proxy.invoke_callback [] "on_open" (.addr 7)) ::
        (Proxy.sessLoop [] [updFrame] replyFrame []).1 ++
        [Proxy.Ev.summary
          (Proxy.sortKeys (Proxy.sessLoop [] [updFrame] replyFrame []).2.1)
          (Proxy.statGetD (Proxy.sessLoop [] [updFrame] replyFrame []).2.1
              OP_QUERY 0 +
            Proxy.statGetD (Proxy.sessLoop [] [updFrame] replyFrame []).2.1
              OP_GETMORE 0 +
            Proxy.statGetD (Proxy.sessLoop [] [updFrame] replyFrame []).2.1
              OP_REPLY 0)
          (Proxy.statGetD (Proxy.sessLoop [] [updFrame] replyFrame []).2.1
              OP_DELETE 0 +
            Proxy.statGetD (Proxy.sessLoop [] [updFrame] replyFrame []).2.1
              OP_INSERT 0 +
            Proxy.statGetD (Proxy.sessLoop [] [updFrame] replyFrame []).2.1
              OP_UPDATE 0 +
            Proxy.statGetD (Proxy.sessLoop [] [updFrame] replyFrame []).2.1
              OP_KILL_CURSORS 0)
          (((Proxy.sessLoop [] [updFrame] replyFrame []).2.1.map
            Prod.snd).sum),
         Proxy.Ev.dispatch "on_close"
           (Proxy.invoke_callback [] "on_close" (.addr 7))] :=
  c9_close_and_summary_amended [] ⟨true, [updFrame], replyFrame⟩ 7 rfl (by decide) (by decide)
    (by decide)

def add_listener {α : Type} [DecidableEq α] (listeners : List α)
    (l : α) : List α :=
  if l ∈ listeners then listeners else listeners ++ [l]

def invoke_callback_ids {α : Type} (listeners : List α)
    (beh : α → Proxy.Listener) (fname : String) (arg : Proxy.CbArg) :
    List (α × Except String Unit) :=
  listeners.map (fun a => (a, beh a fname arg))

/-- C10: `add_listener` is idempotent — adding an already-registered
listener leaves the registration list unchanged — and on a
duplicate-free registry each registered listener is invoked exactly
once per dispatch. -/
theorem c10_add_listener_idempotent {α : Type} [DecidableEq α] (ls : List α) (l : α)
    (beh : α → Proxy.Listener) (fname : String) (arg : Proxy.CbArg)
    (hmem : l ∈ ls) :
    add_listener ls l = ls ∧
    (ls.Nodup →
      ((invoke_callback_ids ls beh fname arg).map Prod.fst).count l = 1) := by
  refine ⟨by simp [add_listener, hmem], fun hnd => ?_⟩
  have hmap : (invoke_callback_ids ls beh fname arg).map Prod.fst = ls := by
    simp only [invoke_callback_ids, List.map_map]
    have hid : (Prod.fst ∘ fun a => (a, beh a fname arg)) = (id : α → α) :=
      rfl
    rw [hid, List.map_id]
  rw [hmap]
  exact List.count_eq_one_of_mem hnd hmem

/-- C10 witness: idempotence and single invocation on a concrete
two-listener registry. -/
theorem c10_add_listener_idempotent_witness :
    add_listener [1, 2] 2 = [1, 2] ∧
    ((invoke_callback_ids [1, 2] (fun _ => okL) "on_open"
        (.addr 0)).map Prod.fst).count 2 = 1 := by
  have h := c10_add_listener_idempotent [1, 2] 2 (fun _ => okL) "on_open" (.addr 0)
    (by decide)
  exact ⟨h.1, h.2 (by decide)⟩

